import Mathlib

/-!
Verification development for the EROS emergency-dispatch backend.

The definitions below are a shallow embedding of the Python sources:
  - backend/routes/authority_routes.py (dispatch, traffic scoring, unit selection)
  - backend/routes/unit_routes.py      (progress queries)
  - backend/routes/location_routes.py  (GPS route-progress projection)
  - backend/events.py                  (movement simulator)
  - backend/models/location.py         (RouteCalculation deactivation)

Coordinates and all monetary-style quantities are modelled as rationals.
The transcendental geometric primitives (haversine_m and the equirectangular
point-to-segment distance, which use sin/cos/atan2) are abstracted as oracle
parameters (Hav, P2S); every piece of logic built on top of them is embedded
exactly.  Encoded polylines are modelled by their decoded point lists (the
polyline codec is a lossless bijection on point sequences, so decode is the
identity in the model and preserves point counts).
-/

namespace EROS

/-- Latitude/longitude pair, as used throughout the backend ([lat, lng] lists). -/
structure Pt where
  lat : ℚ
  lng : ℚ
  deriving DecidableEq

instance : Inhabited Pt := ⟨⟨0, 0⟩⟩

/-- Oracle for the point-to-segment distance in meters
(_point_to_segment_distance_m in authority_routes.py, which uses an
equirectangular projection with cos of the point latitude). -/
abbrev P2S : Type := Pt → Pt → Pt → ℚ

/-- Oracle for the great-circle (haversine) distance in meters. -/
abbrev Hav : Type := Pt → Pt → ℚ

/-- Consecutive pairs of a list: the route segments of a polyline. -/
def consecPairs {α : Type} : List α → List (α × α)
  | [] => []
  | [_] => []
  | a :: b :: rest => (a, b) :: consecPairs (b :: rest)

/-- Running minimum where none plays the role of float infinity. -/
def optMinQ (o : Option ℚ) (x : ℚ) : Option ℚ :=
  match o with
  | none => some x
  | some y => some (min y x)

/-- Comparison of a possibly-infinite distance against a threshold; an
infinite distance is never below the threshold. -/
def optDistLe (d : Option ℚ) (t : ℚ) : Bool :=
  match d with
  | none => false
  | some x => decide (x ≤ t)

/-- Embeds _point_to_polyline_distance_m: minimum distance from a point to the
segments of a polyline, infinity (none) when the polyline has under 2 points. -/
def pointToPolylineDistM (p2s : P2S) (p : Pt) (poly : List Pt) : Option ℚ :=
  (consecPairs poly).foldl (fun acc s => optMinQ acc (p2s p s.1 s.2)) none

/-- Embeds _segment_to_segment_distance_m: minimum of the four
endpoint-to-segment distances. -/
def segToSegDistM (p2s : P2S) (a1 a2 b1 b2 : Pt) : ℚ :=
  min (min (p2s a1 b1 b2) (p2s a2 b1 b2)) (min (p2s b1 a1 a2) (p2s b2 a1 a2))

/-- Embeds _route_segment_to_polyline_distance_m. -/
def routeSegToPolylineDistM (p2s : P2S) (rs re : Pt) (poly : List Pt) : Option ℚ :=
  (consecPairs poly).foldl (fun acc s => optMinQ acc (segToSegDistM p2s rs re s.1 s.2)) none

/-- Linear re-sampling of one route segment with the given step count
(the inner loop of _sample_points_on_route). -/
def sampleSegment (s e : Pt) (steps : ℕ) : List Pt :=
  (List.range (steps + 1)).map (fun i =>
    let t : ℚ := (i : ℚ) / (steps : ℚ)
    ⟨s.lat + (e.lat - s.lat) * t, s.lng + (e.lng - s.lng) * t⟩)

/-- Embeds _sample_points_on_route. -/
def samplePointsOnRoute (hav : Hav) (routePoints : List Pt) (stepM : ℚ) : List Pt :=
  (consecPairs routePoints).foldl (fun acc s =>
    let segLen := hav s.1 s.2
    if segLen ≤ 0 then acc
    else acc ++ sampleSegment s.1 s.2 (max 1 (segLen / stepM).floor.toNat)) []

/-- Operator-drawn blocked polyline, the element shape consumed by the
hard-block tests (dispatch always passes an empty list of these). -/
structure BlockedSeg where
  id : Option ℕ
  points : List Pt
  deriving DecidableEq

/-- Embeds _get_route_blocking_segment_ids: ids of blocked segments within
the hard-block thresholds of the route, via a strict per-segment check plus a
densified point check, returned deduplicated and sorted. -/
def getRouteBlockingSegmentIds (p2s : P2S) (hav : Hav) (routePoints : List Pt)
    (blockedSegs : List BlockedSeg) (blockedThreshM sampledThreshM : ℚ) : List ℕ :=
  if routePoints.length < 2 ∨ blockedSegs = [] then []
  else
    let phase1 := (consecPairs routePoints).foldl (fun acc s =>
      blockedSegs.foldl (fun acc2 b =>
        match b.id with
        | none => acc2
        | some i =>
          if optDistLe (routeSegToPolylineDistM p2s s.1 s.2 b.points) blockedThreshM
          then acc2 ++ [i] else acc2) acc) []
    let sampled := samplePointsOnRoute hav routePoints 25
    let phase2 := sampled.foldl (fun acc pt =>
      blockedSegs.foldl (fun acc2 b =>
        match b.id with
        | none => acc2
        | some i =>
          if optDistLe (pointToPolylineDistM p2s pt b.points) sampledThreshM
          then acc2 ++ [i] else acc2) acc) phase1
    (phase2.dedup).insertionSort (· ≤ ·)

/-- Active traffic segment after _load_active_traffic_segments (id, jam level
string, [lat, lng] polyline). -/
structure TrafficSeg where
  id : ℕ
  jam_level : String
  points : List Pt
  deriving DecidableEq

/-- Jam-level remapping performed by _load_active_traffic_segments on the raw
jam_level column: default MEDIUM, strip/upper, legacy BLOCKED becomes HIGH. -/
def loadJamLevel (raw : Option String) : String :=
  let s := (raw.getD "MEDIUM").trim.toUpper
  if s = "BLOCKED" then "HIGH" else s

/-- Embeds the jam_sec_per_meter dictionary of evaluate_route_traffic_penalty. -/
def jamSecPerMeter (level : String) : Option ℚ :=
  if level = "LOW" then some 0.06
  else if level = "MEDIUM" then some 0.16
  else if level = "HIGH" then some 0.35
  else if level = "BLOCKED" then some 0 else none

/-- Jam hit counters, one field per key of the Python dict. -/
structure JamCounts where
  low : ℕ
  med : ℕ
  high : ℕ
  blocked : ℕ
  deriving DecidableEq

/-- Per-level overlapped route length in meters. -/
structure JamOverlap where
  low : ℚ
  med : ℚ
  high : ℚ
  blocked : ℚ
  deriving DecidableEq

def zeroCounts : JamCounts := ⟨0, 0, 0, 0⟩

def zeroOverlap : JamOverlap := ⟨0, 0, 0, 0⟩

/-- Result shape of evaluate_route_traffic_penalty.  The early-return branch
of the Python function omits the jam_overlap_m key, hence the Option. -/
structure TrafficEval where
  blocked : Bool
  penalty_seconds : ℚ
  jam_hit_counts : JamCounts
  jam_overlap_m : Option JamOverlap
  deriving DecidableEq

/-- Outcome of scanning the traffic segments for one route segment: either the
BLOCKED strict rejection fired, or the level of the closest segment within the
proximity threshold (none when no segment is close enough). -/
inductive InnerScan where
  | blockedHit
  | closest (level : Option String)
  deriving DecidableEq

/-- Inner loop of evaluate_route_traffic_penalty over the traffic segments for
a fixed route segment, threading the running closest level and distance. -/
def innerScanTraffic (p2s : P2S) (s e : Pt) (proxM blockedM : ℚ) :
    List TrafficSeg → Option String → Option ℚ → InnerScan
  | [], best, _ => .closest best
  | t :: ts, best, bestD =>
    let d := routeSegToPolylineDistM p2s s e t.points
    if t.jam_level = "BLOCKED" ∧ optDistLe d blockedM then .blockedHit
    else
      match d with
      | none => innerScanTraffic p2s s e proxM blockedM ts best bestD
      | some dv =>
        if dv ≤ proxM then
          match bestD with
          | none => innerScanTraffic p2s s e proxM blockedM ts (some t.jam_level) (some dv)
          | some bd =>
            if dv < bd then innerScanTraffic p2s s e proxM blockedM ts (some t.jam_level) (some dv)
            else innerScanTraffic p2s s e proxM blockedM ts best bestD
        else innerScanTraffic p2s s e proxM blockedM ts best bestD

/-- Accumulation step of evaluate_route_traffic_penalty once the closest level
for a route segment is known: bump the hit count and overlap of that level and
add segment_length times its per-meter rate. -/
def accumulateLevel (level : Option String) (segLen : ℚ) (penalty : ℚ)
    (counts : JamCounts) (overlap : JamOverlap) : ℚ × JamCounts × JamOverlap :=
  match level with
  | none => (penalty, counts, overlap)
  | some lv =>
    match jamSecPerMeter lv with
    | none => (penalty, counts, overlap)
    | some rate =>
      let counts2 :=
        if lv = "LOW" then { counts with low := counts.low + 1 }
        else if lv = "MEDIUM" then { counts with med := counts.med + 1 }
        else if lv = "HIGH" then { counts with high := counts.high + 1 }
        else if lv = "BLOCKED" then { counts with blocked := counts.blocked + 1 }
        else counts
      let overlap2 :=
        if lv = "LOW" then { overlap with low := overlap.low + segLen }
        else if lv = "MEDIUM" then { overlap with med := overlap.med + segLen }
        else if lv = "HIGH" then { overlap with high := overlap.high + segLen }
        else if lv = "BLOCKED" then { overlap with blocked := overlap.blocked + segLen }
        else overlap
      (penalty + segLen * rate, counts2, overlap2)

/-- State threaded by the outer loop of evaluate_route_traffic_penalty. -/
structure EvalState where
  penalty : ℚ
  blocked : Bool
  counts : JamCounts
  overlap : JamOverlap
  deriving DecidableEq

/-- Outer loop of evaluate_route_traffic_penalty over the route segments; the
BLOCKED rejection records the blocked hit and breaks out of the loop. -/
def evalPenaltyLoop (p2s : P2S) (hav : Hav) (traffic : List TrafficSeg)
    (proxM blockedM : ℚ) : List (Pt × Pt) → EvalState → EvalState
  | [], st => st
  | (s, e) :: rest, st =>
    let segLen := hav s e
    match innerScanTraffic p2s s e proxM blockedM traffic none none with
    | .blockedHit =>
      { st with
        blocked := true
        counts := { st.counts with blocked := st.counts.blocked + 1 }
        overlap := { st.overlap with blocked := st.overlap.blocked + segLen } }
    | .closest lvl =>
      let acc := accumulateLevel lvl segLen st.penalty st.counts st.overlap
      evalPenaltyLoop p2s hav traffic proxM blockedM rest
        { penalty := acc.1, blocked := st.blocked, counts := acc.2.1, overlap := acc.2.2 }

/-- Embeds evaluate_route_traffic_penalty. -/
def evaluate_route_traffic_penalty (p2s : P2S) (hav : Hav) (routePoints : List Pt)
    (traffic : List TrafficSeg) (proxM blockedM : ℚ) : TrafficEval :=
  if routePoints.length < 2 ∨ traffic = [] then
    { blocked := false, penalty_seconds := 0, jam_hit_counts := zeroCounts, jam_overlap_m := none }
  else
    let st := evalPenaltyLoop p2s hav traffic proxM blockedM (consecPairs routePoints)
      { penalty := 0, blocked := false, counts := zeroCounts, overlap := zeroOverlap }
    { blocked := st.blocked, penalty_seconds := st.penalty,
      jam_hit_counts := st.counts, jam_overlap_m := some st.overlap }

/-- Embeds route_jam_severity_rank.  The hits argument is none exactly when the
Python caller passes a falsy (empty) jam_hit_counts dict; the overlap getters
default missing values to zero. -/
def route_jam_severity_rank (hits : Option JamCounts) (overlaps : Option JamOverlap) : ℕ :=
  match hits with
  | none => 1
  | some _ =>
    let low : ℚ := (overlaps.map (·.low)).getD 0
    let med : ℚ := (overlaps.map (·.med)).getD 0
    let high : ℚ := (overlaps.map (·.high)).getD 0
    if 120 ≤ high then 3
    else if 120 ≤ med then 2
    else if low + med + high ≤ 0 then 1
    else if max med low < high then 3
    else if max high low < med then 2
    else 1

/-- Embeds route_congestion_score. -/
def route_congestion_score (overlaps : Option JamOverlap) : ℚ :=
  let low : ℚ := (overlaps.map (·.low)).getD 0
  let med : ℚ := (overlaps.map (·.med)).getD 0
  let high : ℚ := (overlaps.map (·.high)).getD 0
  let total := low + med + high
  if total ≤ 0 then 0.2
  else (0.2 * low + 0.6 * med + 1.0 * high) / total

/-- In-memory simulator entry for one unit (the fields of unit_locations used
by the progress decision in simulate_movement_cycle). -/
structure SimLoc where
  progress : Option ℚ
  emergency_id : Option ℕ
  deriving DecidableEq

/-- Progress computed by one simulate_movement_cycle tick for a unit assigned
to the given emergency: continue with min(1, p + 0.02) when stored simulation
data exists for the same emergency, otherwise reset to 0. -/
def simulateTickProgress (cur : Option SimLoc) (emergencyId : ℕ) : ℚ :=
  match cur with
  | some loc =>
    if loc.progress.isSome && loc.emergency_id == some emergencyId then
      min 1 (loc.progress.getD 0 + 0.02)
    else 0
  | none => 0

/-- Result shape of point_to_segment_distance in location_routes.py. -/
structure PSD where
  distance : ℚ
  distanceAlongSegment : ℚ
  deriving DecidableEq

/-- Embeds point_to_segment_distance of location_routes.py: planar projection
parameter computed on raw degrees, distances through the haversine oracle. -/
def point_to_segment_distance (hav : Hav) (point segStart segEnd : Pt) : PSD :=
  let dx := segEnd.lat - segStart.lat
  let dy := segEnd.lng - segStart.lng
  let fx := point.lat - segStart.lat
  let fy := point.lng - segStart.lng
  let len2 := dx * dx + dy * dy
  let t0 : ℚ := if 0 < len2 then (fx * dx + fy * dy) / len2 else 0
  let t := max 0 (min 1 t0)
  let closest : Pt := ⟨segStart.lat + t * dx, segStart.lng + t * dy⟩
  { distance := hav point closest, distanceAlongSegment := t * hav segStart segEnd }

/-- Accumulator of calculate_route_progress: running minimum distance (none is
float infinity), cumulative route length, and distance travelled up to the
closest segment. -/
structure ProgAcc where
  minD : Option ℚ
  total : ℚ
  distTo : ℚ
  deriving DecidableEq

/-- Loop of calculate_route_progress over the route segments. -/
def progressScan (hav : Hav) (p : Pt) : List (Pt × Pt) → ProgAcc → ProgAcc
  | [], acc => acc
  | (s, e) :: rest, acc =>
    let segD := hav s e
    let total2 := acc.total + segD
    let pd := point_to_segment_distance hav p s e
    let upd : Bool :=
      match acc.minD with
      | none => true
      | some m => decide (pd.distance < m)
    if upd then
      progressScan hav p rest
        { minD := some pd.distance, total := total2,
          distTo := total2 - segD + pd.distanceAlongSegment }
    else progressScan hav p rest { acc with total := total2 }

/-- Embeds calculate_route_progress of location_routes.py; the coordinates
come from GeoJSON as [lng, lat] pairs and are swapped to [lat, lng]. -/
def calculate_route_progress (hav : Hav) (lat lng : ℚ) (coordinates : List (ℚ × ℚ)) : ℚ :=
  if coordinates.length < 2 then 0
  else
    let routeCoords : List Pt := coordinates.map (fun c => ⟨c.2, c.1⟩)
    let acc := progressScan hav ⟨lat, lng⟩ (consecPairs routeCoords) ⟨none, 0, 0⟩
    if 0 < acc.total then min 1 (max 0 (acc.distTo / acc.total)) else 0

/-- Embeds the estimated_duration fallback: route_calc.duration or 300
(Python or treats 0.0 and None as falsy). -/
def estimatedDuration (duration : Option ℚ) : ℚ :=
  match duration with
  | none => 300
  | some d => if d = 0 then 300 else d

/-- Progress computed by the get_unit_routes endpoint (unit_routes.py):
fresh-dispatch ramp below 60 s, otherwise time-based completion. -/
def get_unit_routes_progress (elapsedSeconds : ℚ) (duration : Option ℚ) : ℚ :=
  if elapsedSeconds < 60 then
    min (0.05 + elapsedSeconds / 300 * 0.20) 0.30
  else min (elapsedSeconds / estimatedDuration duration) 1

/-- How the GPS branch of get_active_unit_routes turned out: no active
location or no geometry, a successful projection, or an exception. -/
inductive GpsAttempt where
  | noLocation
  | ok (progress : ℚ)
  | failed
  deriving DecidableEq

/-- Progress computed by the get_active_unit_routes endpoint (unit_routes.py):
identical fresh-dispatch ramp below 60 s, then GPS projection when available
with a time-based fallback. -/
def get_active_unit_routes_progress (elapsedSeconds : ℚ) (duration : Option ℚ)
    (gps : GpsAttempt) : ℚ :=
  if elapsedSeconds < 60 then
    min (0.05 + elapsedSeconds / 300 * 0.20) 0.30
  else
    match gps with
    | .ok g => min g 1
    | .failed => min (elapsedSeconds / estimatedDuration duration) 1
    | .noLocation => min (elapsedSeconds / estimatedDuration duration) 1

/-- Row of the units table (fields used by dispatch and completion). -/
structure UnitRec where
  unit_id : ℕ
  service_type : String
  status : String
  latitude : ℚ
  longitude : ℚ
  deriving DecidableEq

/-- Row of the emergencies table (fields used by dispatch and completion). -/
structure EmgRec where
  request_id : ℕ
  emergency_type : String
  status : String
  latitude : ℚ
  longitude : ℚ
  assigned_unit : Option ℕ
  approved_by : Option String
  deriving DecidableEq

/-- Row of the route_calculations table (RouteCalculation model).  Route
geometry and cached waypoints are modelled by their decoded point lists. -/
structure RouteRec where
  unit_id : ℕ
  emergency_id : Option ℕ
  route_geometry : Option (List Pt)
  distance : Option ℚ
  duration : Option ℚ
  cached_waypoints : Option (List Pt)
  waypoint_count : ℕ
  start_latitude : ℚ
  start_longitude : ℚ
  end_latitude : ℚ
  end_longitude : ℚ
  is_active : Bool
  deriving DecidableEq

/-- The persistent state touched by dispatch and completion. -/
structure SysState where
  units : List UnitRec
  emergencies : List EmgRec
  routes : List RouteRec
  deriving DecidableEq

/-- Primary-key lookup Emergency.query.get. -/
def findEmg (st : SysState) (eid : ℕ) : Option EmgRec :=
  st.emergencies.find? (fun e => e.request_id == eid)

/-- Embeds RouteCalculation.deactivate_routes_for_emergency: flip is_active
off on every active record of the emergency and count how many were flipped. -/
def deactivateRoutesForEmergency (eid : ℕ) : List RouteRec → List RouteRec × ℕ
  | [] => ([], 0)
  | r :: rs =>
    let rest := deactivateRoutesForEmergency eid rs
    if r.emergency_id == some eid && r.is_active then
      ({ r with is_active := false } :: rest.1, rest.2 + 1)
    else (r :: rest.1, rest.2)

/-- Embeds RouteCalculation.deactivate_routes_for_unit. -/
def deactivateRoutesForUnit (uid : ℕ) : List RouteRec → List RouteRec × ℕ
  | [] => ([], 0)
  | r :: rs =>
    let rest := deactivateRoutesForUnit uid rs
    if r.unit_id == uid && r.is_active then
      ({ r with is_active := false } :: rest.1, rest.2 + 1)
    else (r :: rest.1, rest.2)

/-- Release of the assigned unit in complete_emergency: Unit.query.get on the
nullable FK, set AVAILABLE when the unit exists. -/
def releaseUnit (uid : Option ℕ) (units : List UnitRec) : List UnitRec :=
  match uid with
  | none => units
  | some i => units.map (fun u => if u.unit_id == i then { u with status := "AVAILABLE" } else u)

/-- Response of the complete_emergency endpoint. -/
inductive CompleteResp where
  | notFound
  | notAssigned
  | ok (routes_cleared : ℕ)
  deriving DecidableEq

/-- Result of complete_emergency: response plus the state after the commit. -/
structure CompleteResult where
  resp : CompleteResp
  state : SysState
  deriving DecidableEq

/-- Embeds the complete_emergency endpoint of authority_routes.py (the
persistent effects: unit release, emergency completion, route deactivation). -/
def completeEmergency (eid : ℕ) (st : SysState) : CompleteResult :=
  match findEmg st eid with
  | none => ⟨.notFound, st⟩
  | some em =>
    if em.status ≠ "ASSIGNED" then ⟨.notAssigned, st⟩
    else
      let units1 := releaseUnit em.assigned_unit st.units
      let ems1 := st.emergencies.map (fun e =>
        if e.request_id == em.request_id then { e with status := "COMPLETED" } else e)
      let dr := deactivateRoutesForEmergency em.request_id st.routes
      ⟨.ok dr.2, { units := units1, emergencies := ems1, routes := dr.1 }⟩

/-! Helper lemmas about deactivation and lookup. -/

theorem findEmg_request_id {st : SysState} {eid : ℕ} {em : EmgRec}
    (h : findEmg st eid = some em) : em.request_id = eid := by
  have hp := List.find?_some h
  simpa using hp

theorem deactEmg_all_inactive (eid : ℕ) (rs : List RouteRec) :
    ∀ r ∈ (deactivateRoutesForEmergency eid rs).1, r.emergency_id = some eid →
      r.is_active = false := by
  induction rs with
  | nil => simp [deactivateRoutesForEmergency]
  | cons a l ih =>
    intro r hr hid
    simp only [deactivateRoutesForEmergency] at hr
    by_cases hc : (a.emergency_id == some eid && a.is_active) = true
    · rw [if_pos hc] at hr
      rcases List.mem_cons.mp hr with h1 | h2
      · subst h1; rfl
      · exact ih r h2 hid
    · rw [if_neg hc] at hr
      rcases List.mem_cons.mp hr with h1 | h2
      · subst h1
        simp only [Bool.and_eq_true, beq_iff_eq, not_and] at hc
        simpa using hc hid
      · exact ih r h2 hid

theorem deactEmg_count (eid : ℕ) (rs : List RouteRec) :
    (deactivateRoutesForEmergency eid rs).2 =
      (rs.filter (fun r => r.emergency_id == some eid && r.is_active)).length := by
  induction rs with
  | nil => simp [deactivateRoutesForEmergency]
  | cons a l ih =>
    simp only [deactivateRoutesForEmergency, List.filter_cons]
    by_cases hc : (a.emergency_id == some eid && a.is_active) = true
    · simp [hc, ih]
    · simp [hc, ih]

theorem deactEmg_other_preserved (eid : ℕ) (rs : List RouteRec) :
    ∀ r ∈ rs, r.emergency_id ≠ some eid → r ∈ (deactivateRoutesForEmergency eid rs).1 := by
  induction rs with
  | nil => simp
  | cons a l ih =>
    intro r hr hne
    simp only [deactivateRoutesForEmergency]
    rcases List.mem_cons.mp hr with h1 | h2
    · subst h1
      have hc : (r.emergency_id == some eid && r.is_active) = false := by
        simp [hne]
      simp [hc]
    · by_cases hc : (a.emergency_id == some eid && a.is_active) = true
      · simp only [if_pos hc]
        exact List.mem_cons_of_mem _ (ih r h2 hne)
      · simp only [Bool.not_eq_true] at hc
        simp only [hc, Bool.false_eq_true, if_false]
        exact List.mem_cons_of_mem _ (ih r h2 hne)

theorem releaseUnit_available (uid : ℕ) (units : List UnitRec) :
    ∀ u ∈ releaseUnit (some uid) units, u.unit_id = uid → u.status = "AVAILABLE" := by
  intro u hu hid
  simp only [releaseUnit, List.mem_map] at hu
  obtain ⟨v, _, hv⟩ := hu
  by_cases hc : (v.unit_id == uid) = true
  · rw [if_pos hc] at hv; rw [← hv]
  · rw [if_neg hc] at hv
    subst hv
    exact absurd (by simpa using hid) hc

/-- C4: completing an incident in ASSIGNED status deactivates every active
route record of that incident, reports the exact count of records so
deactivated, sets the assigned unit AVAILABLE, and leaves the route records of
other incidents untouched. -/
theorem claim_C4_complete_deactivates (st : SysState) (eid : ℕ) (em : EmgRec) (uid : ℕ)
    (hem : findEmg st eid = some em) (hst : em.status = "ASSIGNED")
    (hu : em.assigned_unit = some uid) :
    (∀ r ∈ (completeEmergency eid st).state.routes,
        r.emergency_id = some eid → r.is_active = false) ∧
    (completeEmergency eid st).resp =
      .ok ((st.routes.filter (fun r => r.emergency_id == some eid && r.is_active)).length) ∧
    (∀ u ∈ (completeEmergency eid st).state.units,
        u.unit_id = uid → u.status = "AVAILABLE") ∧
    (∀ r ∈ st.routes, r.emergency_id ≠ some eid →
        r ∈ (completeEmergency eid st).state.routes) := by
  have hrid := findEmg_request_id hem
  have hres : completeEmergency eid st =
      ⟨.ok (deactivateRoutesForEmergency em.request_id st.routes).2,
        { units := releaseUnit em.assigned_unit st.units
          emergencies := st.emergencies.map (fun e =>
            if e.request_id == em.request_id then { e with status := "COMPLETED" } else e)
          routes := (deactivateRoutesForEmergency em.request_id st.routes).1 }⟩ := by
    simp [completeEmergency, hem, hst]
  rw [hres]
  refine ⟨?_, ?_, ?_, ?_⟩
  · intro r hr hid
    exact deactEmg_all_inactive eid st.routes r (by rwa [hrid] at hr) hid
  · simp only [hrid, deactEmg_count]
  · intro u hu2 hid
    rw [hu] at hu2
    exact releaseUnit_available uid st.units u hu2 hid
  · intro r hr hne
    have := deactEmg_other_preserved eid st.routes r hr hne
    simpa [hrid] using this

/-- Concrete state for the C4 witness: one dispatched unit, one assigned
emergency, two active route records of different emergencies. -/
def claimC4state : SysState :=
  { units := [⟨3, "FIRE", "DISPATCHED", 1, 1⟩]
    emergencies := [⟨7, "FIRE", "ASSIGNED", 0, 0, some 3, none⟩]
    routes := [⟨3, some 7, none, none, none, none, 0, 0, 0, 0, 0, true⟩,
               ⟨4, some 8, none, none, none, none, 0, 0, 0, 0, 0, true⟩] }

/-- Witness for C4 at a concrete state with two route records, one of the
completed incident and one of another incident. -/
theorem claim_C4_witness :
    (∀ r ∈ (completeEmergency 7 claimC4state).state.routes,
        r.emergency_id = some 7 → r.is_active = false) ∧
    (completeEmergency 7 claimC4state).resp =
      .ok ((claimC4state.routes.filter
        (fun r => r.emergency_id == some 7 && r.is_active)).length) ∧
    (∀ u ∈ (completeEmergency 7 claimC4state).state.units,
        u.unit_id = 3 → u.status = "AVAILABLE") ∧
    (∀ r ∈ claimC4state.routes, r.emergency_id ≠ some 7 →
        r ∈ (completeEmergency 7 claimC4state).state.routes) :=
  claim_C4_complete_deactivates claimC4state 7
    ⟨7, "FIRE", "ASSIGNED", 0, 0, some 3, none⟩ 3 (by decide) rfl rfl

/-- C5 counterexample: jam overlap totals with 50 m of HIGH overlap and
nothing else are ranked 3 by route_jam_severity_rank, while the claim (HIGH
at least 120 ranks 3, else MEDIUM at least 120 ranks 2, otherwise 1) demands
rank 1 for them. -/
theorem claim_C5_counterexample :
    route_jam_severity_rank (some ⟨0, 0, 1, 0⟩) (some ⟨0, 0, 50, 0⟩) = 3 ∧
    ¬ ((120 : ℚ) ≤ 50) ∧ ¬ ((120 : ℚ) ≤ 0) := by
  refine ⟨?_, by norm_num, by norm_num⟩
  simp [route_jam_severity_rank]
  norm_num

/-- C5 amended: rank is 3 when HIGH overlap is at least 120 m, else 2 when
MEDIUM overlap is at least 120 m; below both thresholds the rank is 1 when
there is no overlap at all, and otherwise a dominance fallback applies: 3 when
HIGH strictly exceeds both other overlaps, 2 when MEDIUM strictly exceeds both
other overlaps, else 1. -/
theorem claim_C5_amended (c : JamCounts) (o : JamOverlap) :
    (120 ≤ o.high → route_jam_severity_rank (some c) (some o) = 3) ∧
    (o.high < 120 → 120 ≤ o.med → route_jam_severity_rank (some c) (some o) = 2) ∧
    (o.high < 120 → o.med < 120 → o.low + o.med + o.high ≤ 0 →
      route_jam_severity_rank (some c) (some o) = 1) ∧
    (o.high < 120 → o.med < 120 → 0 < o.low + o.med + o.high →
      max o.med o.low < o.high → route_jam_severity_rank (some c) (some o) = 3) ∧
    (o.high < 120 → o.med < 120 → 0 < o.low + o.med + o.high →
      max o.high o.low < o.med → route_jam_severity_rank (some c) (some o) = 2) ∧
    (o.high < 120 → o.med < 120 → 0 < o.low + o.med + o.high →
      o.high ≤ max o.med o.low → o.med ≤ max o.high o.low →
      route_jam_severity_rank (some c) (some o) = 1) := by
  simp only [route_jam_severity_rank, Option.map_some', Option.getD_some]
  refine ⟨?_, ?_, ?_, ?_, ?_, ?_⟩
  · intro h1; rw [if_pos h1]
  · intro h1 h2; rw [if_neg (not_le.mpr h1), if_pos h2]
  · intro h1 h2 h3
    rw [if_neg (not_le.mpr h1), if_neg (not_le.mpr h2), if_pos h3]
  · intro h1 h2 h3 h4
    rw [if_neg (not_le.mpr h1), if_neg (not_le.mpr h2), if_neg (not_le.mpr h3), if_pos h4]
  · intro h1 h2 h3 h4
    have hh : o.high < o.med := lt_of_le_of_lt (le_max_left _ _) h4
    have hnot : ¬ (max o.med o.low < o.high) :=
      not_lt.mpr (le_trans (le_of_lt hh) (le_max_left _ _))
    rw [if_neg (not_le.mpr h1), if_neg (not_le.mpr h2), if_neg (not_le.mpr h3),
      if_neg hnot, if_pos h4]
  · intro h1 h2 h3 h4 h5
    rw [if_neg (not_le.mpr h1), if_neg (not_le.mpr h2), if_neg (not_le.mpr h3),
      if_neg (not_lt.mpr h4), if_neg (not_lt.mpr h5)]

/-- Witness for the amended C5 at a 130 m HIGH overlap. -/
theorem claim_C5_witness :
    route_jam_severity_rank (some ⟨0, 0, 1, 0⟩) (some ⟨0, 0, 130, 0⟩) = 3 :=
  (claim_C5_amended ⟨0, 0, 1, 0⟩ ⟨0, 0, 130, 0⟩).1 (by norm_num)

/-- C3 counterexample: when a new emergency is recorded for a unit (here the
tracker holds emergency 1 at progress 0.5 and the tick serves emergency 2),
simulate_movement_cycle resets the progress to 0, which is outside the
fresh-dispatch range claimed to start at 0.05. -/
theorem claim_C3_counterexample :
    simulateTickProgress (some ⟨some 0.5, some 1⟩) 2 = 0 ∧
    ¬ ((0.05 : ℚ) ≤ 0) := by
  constructor
  · simp [simulateTickProgress]
  · norm_num

/-- C3 amended: a simulator tick for the same emergency as the stored
simulation data never decreases the progress (it moves by +0.02 capped at 1),
while a tick for a different emergency resets the progress to 0 (not to the
fresh-dispatch range). -/
theorem claim_C3_amended (loc : SimLoc) (em : ℕ) (p : ℚ)
    (hp : loc.progress = some p) (hle : p ≤ 1) :
    (loc.emergency_id = some em → p ≤ simulateTickProgress (some loc) em) ∧
    (loc.emergency_id ≠ some em → simulateTickProgress (some loc) em = 0) := by
  constructor
  · intro hid
    simp only [simulateTickProgress, hp, hid, Option.isSome_some, beq_self_eq_true,
      Bool.and_self, if_true, Option.getD_some]
    exact le_min hle (by linarith)
  · intro hid
    simp [simulateTickProgress, hid]

/-- Witness for the amended C3: continuing emergency 3 from progress 0.5 does
not decrease it. -/
theorem claim_C3_witness :
    (0.5 : ℚ) ≤ simulateTickProgress (some ⟨some 0.5, some 3⟩) 3 :=
  (claim_C3_amended ⟨some 0.5, some 3⟩ 3 0.5 rfl (by norm_num)).1 rfl

/-- C7: below 60 s elapsed, both unit-route progress queries return exactly
min(0.05 + (elapsed/300) times 0.20, 0.30); at elapsed = 10 s the value lies
in the interval [0.05, 0.087]. -/
theorem claim_C7_fresh_progress (e : ℚ) (d : Option ℚ) (g : GpsAttempt) (he : e < 60) :
    get_unit_routes_progress e d = min (0.05 + e / 300 * 0.20) 0.30 ∧
    get_active_unit_routes_progress e d g = min (0.05 + e / 300 * 0.20) 0.30 ∧
    0.05 ≤ get_unit_routes_progress 10 d ∧
    get_unit_routes_progress 10 d ≤ 0.087 := by
  have h10 : ((10 : ℚ) < 60) := by norm_num
  have hval : get_unit_routes_progress 10 d = min (0.05 + 10 / 300 * 0.20) 0.30 := by
    simp [get_unit_routes_progress, h10]
  refine ⟨by simp [get_unit_routes_progress, he], by simp [get_active_unit_routes_progress, he], ?_, ?_⟩
  · rw [hval, min_eq_left (by norm_num)]; norm_num
  · rw [hval, min_eq_left (by norm_num)]; norm_num

/-- Witness for C7 at elapsed 10 s with no stored duration. -/
theorem claim_C7_witness :
    get_unit_routes_progress 10 none = min (0.05 + 10 / 300 * 0.20) 0.30 ∧
    get_active_unit_routes_progress 10 none .noLocation = min (0.05 + 10 / 300 * 0.20) 0.30 ∧
    0.05 ≤ get_unit_routes_progress 10 none ∧
    get_unit_routes_progress 10 none ≤ 0.087 :=
  claim_C7_fresh_progress 10 none .noLocation (by norm_num)

/-- Maximum allowed route distance for approval/dispatch (50 km). -/
def MAX_DISTANCE_METERS : ℚ := 50000

/-- Route alternative as returned by the candidate generator, before
validation; geometry is the decoded point list of the encoded polyline. -/
structure RouteIn where
  distance : Option ℚ
  duration : Option ℚ
  geometry : Option (List Pt)
  deriving DecidableEq

/-- Candidate route dict built by the dispatch selection loop. -/
structure Cand where
  distance : ℚ
  duration : ℚ
  geometry : List Pt
  traffic_penalty_seconds : ℚ
  traffic_score : ℚ
  jam_rank : ℕ
  jam_hit_counts : JamCounts
  jam_overlap_m : Option JamOverlap
  combined_cost : Option ℚ
  congestion_score : Option ℚ
  deriving DecidableEq

/-- The fallback_shortest record tracked while scanning alternatives. -/
structure FallbackRoute where
  distance : ℚ
  duration : ℚ
  geometry : List Pt
  deriving DecidableEq

/-- The best dict of dispatch_emergency, restricted to the fields that are
persisted (distance, duration, geometry). -/
structure BestRoute where
  distance : ℚ
  duration : Option ℚ
  geometry : Option (List Pt)
  deriving DecidableEq

/-- One iteration of the alternative-routes loop of dispatch_emergency:
validate the candidate, update fallback_shortest, drop hard-blocked or
traffic-blocked candidates, and otherwise score and keep the candidate. -/
def buildStep (p2s : P2S) (hav : Hav) (traffic : List TrafficSeg)
    (bs : List BlockedSeg) (acc : List Cand × Option FallbackRoute) (r : RouteIn) :
    List Cand × Option FallbackRoute :=
  match r.distance, r.duration, r.geometry with
  | some dist, some dur, some geom =>
    if MAX_DISTANCE_METERS < dist then acc
    else
      let fb : Option FallbackRoute :=
        match acc.2 with
        | none => some ⟨dist, dur, geom⟩
        | some f => if dur < f.duration then some ⟨dist, dur, geom⟩ else some f
      if ¬ (getRouteBlockingSegmentIds p2s hav geom bs 90 100).isEmpty then (acc.1, fb)
      else
        let ev := evaluate_route_traffic_penalty p2s hav geom traffic 75 120
        if ev.blocked then (acc.1, fb)
        else
          let effPen := min ev.penalty_seconds (dur * 0.35)
          (acc.1 ++ [{ distance := dist, duration := dur, geometry := geom,
                       traffic_penalty_seconds := effPen, traffic_score := dur + effPen,
                       jam_rank := route_jam_severity_rank (some ev.jam_hit_counts) ev.jam_overlap_m,
                       jam_hit_counts := ev.jam_hit_counts, jam_overlap_m := ev.jam_overlap_m,
                       combined_cost := none, congestion_score := none }], fb)
  | _, _, _ => acc

/-- Embeds the non_blocked_candidates / fallback_shortest construction of
dispatch_emergency over the fetched alternatives. -/
def buildCandidates (p2s : P2S) (hav : Hav) (traffic : List TrafficSeg)
    (bs : List BlockedSeg) (alts : List RouteIn) : List Cand × Option FallbackRoute :=
  alts.foldl (buildStep p2s hav traffic bs) ([], none)

/-- Python min over a nonempty list of naturals (value of min(list)). -/
def listMinNat (l : List ℕ) : ℕ :=
  match l with
  | [] => 0
  | x :: xs => xs.foldl min x

/-- Python min over a nonempty list of rationals (value of min(list)). -/
def listMinQ (l : List ℚ) : ℚ :=
  match l with
  | [] => 0
  | x :: xs => xs.foldl min x

/-- Python max over a nonempty list of rationals (value of max(list)). -/
def listMaxQ (l : List ℚ) : ℚ :=
  match l with
  | [] => 0
  | x :: xs => xs.foldl max x

/-- Python min(list, key) with a rational key: the first element attaining the
minimum key. -/
def firstMinByQ {α : Type} (f : α → ℚ) : List α → Option α
  | [] => none
  | x :: xs => some (xs.foldl (fun b y => if f y < f b then y else b) x)

/-- Python min(list, key) with a (nat, rational) tuple key, compared
lexicographically. -/
def firstMinByLex {α : Type} (f : α → ℕ × ℚ) : List α → Option α
  | [] => none
  | x :: xs => some (xs.foldl (fun b y =>
      if (f y).1 < (f b).1 ∨ ((f y).1 = (f b).1 ∧ (f y).2 < (f b).2) then y else b) x)

/-- Minimum severity rank over the non-blocked candidates. -/
def minRankOf (nb : List Cand) : ℕ := listMinNat (nb.map (·.jam_rank))

/-- Candidates restricted to the minimum severity rank. -/
def rankedPre (nb : List Cand) : List Cand :=
  nb.filter (fun c => c.jam_rank == minRankOf nb)

def minRankDur (nb : List Cand) : ℚ := listMinQ ((rankedPre nb).map (·.duration))

def maxRankDur (nb : List Cand) : ℚ := listMaxQ ((rankedPre nb).map (·.duration))

def minRankCong (nb : List Cand) : ℚ :=
  listMinQ ((rankedPre nb).map (fun c => route_congestion_score c.jam_overlap_m))

def maxRankCong (nb : List Cand) : ℚ :=
  listMaxQ ((rankedPre nb).map (fun c => route_congestion_score c.jam_overlap_m))

/-- The norm helper of dispatch_emergency. -/
def normVal (v lo hi : ℚ) : ℚ := if hi ≤ lo then 0 else (v - lo) / (hi - lo)

/-- In-place combined_cost / congestion_score assignment on the ranked
candidates (the Python loop mutates the shared dicts, so the update is
visible through non_blocked_candidates as well). -/
def setCost (nb : List Cand) (c : Cand) : Cand :=
  if c.jam_rank == minRankOf nb then
    let cong := route_congestion_score c.jam_overlap_m
    { c with
      combined_cost := some (0.55 * normVal cong (minRankCong nb) (maxRankCong nb)
        + 0.45 * normVal c.duration (minRankDur nb) (maxRankDur nb))
      congestion_score := some cong }
  else c

/-- The non_blocked_candidates list after the cost-assignment loop. -/
def updatedNB (nb : List Cand) : List Cand := nb.map (setCost nb)

/-- The ranked_candidates list after the cost-assignment loop. -/
def rankedPost (nb : List Cand) : List Cand :=
  (updatedNB nb).filter (fun c => c.jam_rank == minRankOf nb)

/-- The sort key (combined_cost, traffic_score) of the final selection,
compared lexicographically as Python sorted does. -/
def keyLex (a b : Cand) : Prop :=
  a.combined_cost.getD 0 < b.combined_cost.getD 0 ∨
    (a.combined_cost.getD 0 = b.combined_cost.getD 0 ∧ a.traffic_score ≤ b.traffic_score)

instance : DecidableRel keyLex := fun a b => by
  unfold keyLex
  infer_instance

/-- The candidate selected by combined cost before the shortest-route
preference tweak: first sorted candidate that passes the (vacuous in dispatch)
hard-block re-check. -/
def selected0 (p2s : P2S) (hav : Hav) (bs : List BlockedSeg) (nb : List Cand) : Option Cand :=
  ((rankedPost nb).insertionSort keyLex).find?
    (fun c => (getRouteBlockingSegmentIds p2s hav c.geometry bs 90 100).isEmpty)

/-- Embeds the final selection among non-blocked candidates, including the
shortest-route preference tweak of dispatch_emergency. -/
def selectFromNonBlocked (p2s : P2S) (hav : Hav) (bs : List BlockedSeg)
    (nb : List Cand) : Option Cand :=
  match selected0 p2s hav bs nb with
  | none => none
  | some sel =>
    match firstMinByQ (·.duration) (updatedNB nb) with
    | none => some sel
    | some shortest =>
      if shortest.jam_rank ≤ 1 ∧ shortest.combined_cost.getD 1 ≤ sel.combined_cost.getD 1 + 0.08
      then some shortest else some sel

/-- Embeds the rescue pass of dispatch_emergency (re-evaluate all alternatives
and accept the best by (jam rank, traffic-adjusted duration), even with
penalty). -/
def rescueCandidates (p2s : P2S) (hav : Hav) (traffic : List TrafficSeg)
    (bs : List BlockedSeg) (alts : List RouteIn) : List Cand :=
  alts.foldl (fun acc r =>
    match r.distance, r.duration, r.geometry with
    | some dist, some dur, some geom =>
      if MAX_DISTANCE_METERS < dist then acc
      else if ¬ (getRouteBlockingSegmentIds p2s hav geom bs 90 100).isEmpty then acc
      else
        let ev := evaluate_route_traffic_penalty p2s hav geom traffic 75 120
        let effPen := min ev.penalty_seconds (dur * 0.35)
        acc ++ [{ distance := dist, duration := dur, geometry := geom,
                  traffic_penalty_seconds := effPen, traffic_score := dur + effPen,
                  jam_rank := route_jam_severity_rank (some ev.jam_hit_counts) ev.jam_overlap_m,
                  jam_hit_counts := ev.jam_hit_counts, jam_overlap_m := ev.jam_overlap_m,
                  combined_cost := none, congestion_score := none }]
    | _, _, _ => acc) []

/-- Outcome of the per-unit OSRM distance/duration call during nearest-unit
selection: success with the reported optional fields, or an exception. -/
inductive OsrmOutcome where
  | ok (distance : Option ℚ) (duration : Option ℚ)
  | err
  deriving DecidableEq

/-- An entry of unit_candidates. -/
structure UCand where
  unit : UnitRec
  dist : ℚ
  dur : Option ℚ
  deriving DecidableEq

/-- Running nearest_raw_distance update. -/
def nearestUpd (cur : Option ℚ) (d : ℚ) : Option ℚ :=
  match cur with
  | none => some d
  | some m => if d < m then some d else some m

/-- One iteration of the unit-candidate loop of dispatch_emergency: OSRM
distance when available (entries with a missing distance are skipped),
haversine fallback on provider failure, 50 km cap filter, nearest raw distance
tracking. -/
def scanStep (osrm : UnitRec → OsrmOutcome) (havm : Hav) (em : EmgRec)
    (acc : List UCand × Option ℚ) (u : UnitRec) : List UCand × Option ℚ :=
  match osrm u with
  | .ok none _ => acc
  | .ok (some d) dur =>
    let near := nearestUpd acc.2 d
    if d ≤ MAX_DISTANCE_METERS then (acc.1 ++ [⟨u, d, dur⟩], near) else (acc.1, near)
  | .err =>
    let e := havm ⟨em.latitude, em.longitude⟩ ⟨u.latitude, u.longitude⟩
    let near := nearestUpd acc.2 e
    if e ≤ MAX_DISTANCE_METERS then (acc.1 ++ [⟨u, e, none⟩], near) else (acc.1, near)

/-- The unit-candidate loop of dispatch_emergency over the AVAILABLE pool. -/
def scanUnits (osrm : UnitRec → OsrmOutcome) (havm : Hav) (em : EmgRec)
    (pool : List UnitRec) : List UCand × Option ℚ :=
  pool.foldl (scanStep osrm havm em) ([], none)

/-- Raw distance observed for a unit: the OSRM distance when the call
succeeds (none when OSRM reports no distance), the haversine fallback on
provider failure. -/
def obsDist (osrm : UnitRec → OsrmOutcome) (havm : Hav) (em : EmgRec)
    (u : UnitRec) : Option ℚ :=
  match osrm u with
  | .ok od _ => od
  | .err => some (havm ⟨em.latitude, em.longitude⟩ ⟨u.latitude, u.longitude⟩)

/-- Embeds the 245-point waypoint cap applied before persisting a route:
uniform stride sampling with truncating index arithmetic when the decoded
route has more than 245 points. -/
def capWaypoints (pts : List Pt) : List Pt :=
  if 245 < pts.length then
    (List.range 245).map (fun i => pts.getD (i * pts.length / 245) default)
  else pts

def setUnitDispatched (uid : ℕ) (units : List UnitRec) : List UnitRec :=
  units.map (fun u => if u.unit_id == uid then { u with status := "DISPATCHED" } else u)

def assignEmergency (eid uid : ℕ) (ems : List EmgRec) : List EmgRec :=
  ems.map (fun e =>
    if e.request_id == eid then
      { e with status := "ASSIGNED", assigned_unit := some uid,
               approved_by := some "Central Authority" }
    else e)

/-- Response of the dispatch_emergency endpoint. -/
inductive DispatchResp where
  | notFound
  | wrongStatus (status : String)
  | noUnits
  | noneWithinCap (nearest_distance_m : Option ℚ)
  | ok (assigned_unit_id : ℕ) (distance_m : ℚ) (eta_s : Option ℚ) (waypoint_count : ℕ)
  deriving DecidableEq

/-- Result of dispatch_emergency: response plus the state after the commit. -/
structure DispatchResult where
  resp : DispatchResp
  state : SysState
  deriving DecidableEq

/-- The best route chosen by dispatch_emergency for the selected nearest
unit: traffic-aware selection among non-blocked candidates, then the rescue
pass, then the geometry-less fallback built from the unit-selection data. -/
def bestRouteOf (p2s : P2S) (hav : Hav) (traffic : List TrafficSeg)
    (bs : List BlockedSeg) (alts : List RouteIn) (selU : UCand) : BestRoute :=
  let best0 : BestRoute := { distance := selU.dist, duration := selU.dur, geometry := none }
  let bres := buildCandidates p2s hav traffic bs alts
  if ¬ bres.1.isEmpty then
    match selectFromNonBlocked p2s hav bs bres.1 with
    | some sel =>
      { distance := sel.distance, duration := some sel.duration, geometry := some sel.geometry }
    | none => best0
  else
    match bres.2 with
    | some _ =>
      match firstMinByLex (fun c => (c.jam_rank, c.traffic_score))
          (rescueCandidates p2s hav traffic bs alts) with
      | some rsel =>
        { distance := rsel.distance, duration := some rsel.duration,
          geometry := some rsel.geometry }
      | none => best0
    | none => best0

/-- Waypoint caching applied to the chosen geometry before persisting:
decoded points capped at 245, count taken from the capped list. -/
def wpOf (best : BestRoute) : Option (List Pt) × ℕ :=
  match best.geometry with
  | some pts => (some (capWaypoints pts), (capWaypoints pts).length)
  | none => (none, 0)

/-- The RouteCalculation record inserted by a successful dispatch. -/
def newRecOf (p2s : P2S) (hav : Hav) (traffic : List TrafficSeg) (bs : List BlockedSeg)
    (alts : List RouteIn) (em : EmgRec) (selU : UCand) : RouteRec :=
  let best := bestRouteOf p2s hav traffic bs alts selU
  { unit_id := selU.unit.unit_id, emergency_id := some em.request_id,
    route_geometry := best.geometry, distance := some best.distance,
    duration := best.duration, cached_waypoints := (wpOf best).1,
    waypoint_count := (wpOf best).2,
    start_latitude := selU.unit.latitude, start_longitude := selU.unit.longitude,
    end_latitude := em.latitude, end_longitude := em.longitude, is_active := true }

/-- Successful tail of dispatch_emergency once the nearest unit is chosen:
status flips, emergency assignment, prior-route deactivation and insertion of
the fresh active route record. -/
def dispatchSuccess (p2s : P2S) (hav : Hav) (traffic : List TrafficSeg)
    (bs : List BlockedSeg) (alts : List RouteIn) (em : EmgRec) (selU : UCand)
    (st : SysState) : DispatchResult :=
  let best := bestRouteOf p2s hav traffic bs alts selU
  ⟨.ok selU.unit.unit_id best.distance best.duration (wpOf best).2,
   { units := setUnitDispatched selU.unit.unit_id st.units
     emergencies := assignEmergency em.request_id selU.unit.unit_id st.emergencies
     routes := (deactivateRoutesForUnit selU.unit.unit_id st.routes).1 ++
       [newRecOf p2s hav traffic bs alts em selU] }⟩

/-- The pool of AVAILABLE units of the required service type. -/
def poolOf (st : SysState) (em : EmgRec) : List UnitRec :=
  st.units.filter (fun u => u.service_type == em.emergency_type && u.status == "AVAILABLE")

/-- Embeds the dispatch_emergency endpoint of authority_routes.py on its
non-exception path.  The network calls are abstracted: osrm is the per-unit
distance lookup, alts the fetched route alternatives, traffic the loaded
active traffic segments.  blocked_segments is the empty list exactly as in the
source (line 797). -/
def dispatchEmergency (p2s : P2S) (hav : Hav) (havm : Hav)
    (osrm : UnitRec → OsrmOutcome) (alts : List RouteIn)
    (traffic : List TrafficSeg) (eid : ℕ) (st : SysState) : DispatchResult :=
  match findEmg st eid with
  | none => ⟨.notFound, st⟩
  | some em =>
    if em.status ≠ "PENDING" ∧ em.status ≠ "APPROVED" then ⟨.wrongStatus em.status, st⟩
    else
      if (poolOf st em).isEmpty then ⟨.noUnits, st⟩
      else
        let scan := scanUnits osrm havm em (poolOf st em)
        match firstMinByQ (·.dist) scan.1 with
        | none => ⟨.noneWithinCap scan.2, st⟩
        | some selU => dispatchSuccess p2s hav traffic [] alts em selU st

/-! Helper lemmas for the first-minimum fold and the unit scan. -/

theorem foldMinQ_mem {α : Type} (f : α → ℚ) (b : α) (l : List α) :
    l.foldl (fun b y => if f y < f b then y else b) b ∈ b :: l := by
  induction l generalizing b with
  | nil => simp
  | cons a t ih =>
    simp only [List.foldl_cons]
    by_cases h : f a < f b
    · rw [if_pos h]
      have := ih a
      simp only [List.mem_cons] at this ⊢
      tauto
    · rw [if_neg h]
      have := ih b
      simp only [List.mem_cons] at this ⊢
      tauto

theorem foldMinQ_le {α : Type} (f : α → ℚ) (b : α) (l : List α) :
    f (l.foldl (fun b y => if f y < f b then y else b) b) ≤ f b ∧
      ∀ y ∈ l, f (l.foldl (fun b y => if f y < f b then y else b) b) ≤ f y := by
  induction l generalizing b with
  | nil => simp
  | cons a t ih =>
    simp only [List.foldl_cons]
    by_cases h : f a < f b
    · rw [if_pos h]
      obtain ⟨h1, h2⟩ := ih a
      refine ⟨le_trans h1 (le_of_lt h), ?_⟩
      intro y hy
      rcases List.mem_cons.mp hy with rfl | hy2
      · exact h1
      · exact h2 y hy2
    · rw [if_neg h]
      obtain ⟨h1, h2⟩ := ih b
      refine ⟨h1, ?_⟩
      intro y hy
      rcases List.mem_cons.mp hy with rfl | hy2
      · exact le_trans h1 (not_lt.mp h)
      · exact h2 y hy2

theorem firstMinByQ_mem {α : Type} {f : α → ℚ} {l : List α} {x : α}
    (h : firstMinByQ f l = some x) : x ∈ l := by
  cases l with
  | nil => exact absurd h (by simp [firstMinByQ])
  | cons a t =>
    simp only [firstMinByQ, Option.some_inj] at h
    have := foldMinQ_mem f a t
    rw [h] at this
    exact this

theorem firstMinByQ_le {α : Type} {f : α → ℚ} {l : List α} {x : α}
    (h : firstMinByQ f l = some x) : ∀ y ∈ l, f x ≤ f y := by
  cases l with
  | nil => simp
  | cons a t =>
    simp only [firstMinByQ, Option.some_inj] at h
    obtain ⟨h1, h2⟩ := foldMinQ_le f a t
    intro y hy
    rcases List.mem_cons.mp hy with rfl | hy2
    · rw [h] at h1; exact h1
    · rw [h] at h2; exact h2 y hy2

/-- Value of one unit-candidate loop iteration as an Option (the entry pushed
to unit_candidates, if any). -/
def candOf (osrm : UnitRec → OsrmOutcome) (havm : Hav) (em : EmgRec)
    (u : UnitRec) : Option UCand :=
  match osrm u with
  | .ok none _ => none
  | .ok (some d) dur => if d ≤ MAX_DISTANCE_METERS then some ⟨u, d, dur⟩ else none
  | .err =>
    if havm ⟨em.latitude, em.longitude⟩ ⟨u.latitude, u.longitude⟩ ≤ MAX_DISTANCE_METERS
    then some ⟨u, havm ⟨em.latitude, em.longitude⟩ ⟨u.latitude, u.longitude⟩, none⟩
    else none

theorem scanStep_fst (osrm : UnitRec → OsrmOutcome) (havm : Hav) (em : EmgRec)
    (acc : List UCand × Option ℚ) (u : UnitRec) :
    (scanStep osrm havm em acc u).1 = acc.1 ++ (candOf osrm havm em u).toList := by
  simp only [scanStep, candOf]
  cases osrm u with
  | ok od dur =>
    cases od with
    | none => simp
    | some d =>
      by_cases h : d ≤ MAX_DISTANCE_METERS
      · simp [h]
      · simp [h]
  | err =>
    by_cases h : havm ⟨em.latitude, em.longitude⟩ ⟨u.latitude, u.longitude⟩ ≤ MAX_DISTANCE_METERS
    · simp [h]
    · simp [h]

theorem scanStep_snd (osrm : UnitRec → OsrmOutcome) (havm : Hav) (em : EmgRec)
    (acc : List UCand × Option ℚ) (u : UnitRec) :
    (scanStep osrm havm em acc u).2 =
      match obsDist osrm havm em u with
      | none => acc.2
      | some d => nearestUpd acc.2 d := by
  simp only [scanStep, obsDist]
  cases osrm u with
  | ok od dur =>
    cases od with
    | none => simp
    | some d =>
      by_cases h : d ≤ MAX_DISTANCE_METERS
      · simp [h]
      · simp [h]
  | err =>
    by_cases h : havm ⟨em.latitude, em.longitude⟩ ⟨u.latitude, u.longitude⟩ ≤ MAX_DISTANCE_METERS
    · simp [h]
    · simp [h]

theorem scan_fst_general (osrm : UnitRec → OsrmOutcome) (havm : Hav) (em : EmgRec)
    (pool : List UnitRec) (acc : List UCand × Option ℚ) :
    (pool.foldl (scanStep osrm havm em) acc).1 =
      acc.1 ++ pool.filterMap (candOf osrm havm em) := by
  induction pool generalizing acc with
  | nil => simp
  | cons u t ih =>
    simp only [List.foldl_cons]
    rw [ih, scanStep_fst]
    cases hc : candOf osrm havm em u with
    | none => simp [List.filterMap_cons, hc]
    | some c => simp [List.filterMap_cons, hc]

theorem scan_snd_general (osrm : UnitRec → OsrmOutcome) (havm : Hav) (em : EmgRec)
    (pool : List UnitRec) (acc : List UCand × Option ℚ) :
    (pool.foldl (scanStep osrm havm em) acc).2 =
      (pool.filterMap (obsDist osrm havm em)).foldl nearestUpd acc.2 := by
  induction pool generalizing acc with
  | nil => simp
  | cons u t ih =>
    simp only [List.foldl_cons]
    rw [ih]
    cases ho : obsDist osrm havm em u with
    | none =>
      have h2 := scanStep_snd osrm havm em acc u
      rw [ho] at h2
      simp [List.filterMap_cons, ho, h2]
    | some d =>
      have h2 := scanStep_snd osrm havm em acc u
      rw [ho] at h2
      simp [List.filterMap_cons, ho, h2]

theorem foldl_nearestUpd_some (l : List ℚ) (m : ℚ) :
    l.foldl nearestUpd (some m) = some (l.foldl min m) := by
  induction l generalizing m with
  | nil => simp
  | cons a t ih =>
    simp only [List.foldl_cons]
    have h : nearestUpd (some m) a = some (min m a) := by
      simp only [nearestUpd]
      rcases lt_or_ge a m with h | h
      · rw [if_pos h, min_eq_right (le_of_lt h)]
      · rw [if_neg (not_lt.mpr h), min_eq_left h]
    rw [h, ih]

theorem foldl_nearestUpd_none (l : List ℚ) :
    l.foldl nearestUpd none = l.min? := by
  cases l with
  | nil => rfl
  | cons a t =>
    show (t.foldl nearestUpd (nearestUpd none a)) = some (t.foldl min a)
    have h : nearestUpd none a = some a := rfl
    rw [h, foldl_nearestUpd_some]

theorem scanUnits_fst (osrm : UnitRec → OsrmOutcome) (havm : Hav) (em : EmgRec)
    (pool : List UnitRec) :
    (scanUnits osrm havm em pool).1 = pool.filterMap (candOf osrm havm em) := by
  unfold scanUnits
  rw [scan_fst_general]
  simp

theorem scanUnits_snd (osrm : UnitRec → OsrmOutcome) (havm : Hav) (em : EmgRec)
    (pool : List UnitRec) :
    (scanUnits osrm havm em pool).2 = (pool.filterMap (obsDist osrm havm em)).min? := by
  unfold scanUnits
  rw [scan_snd_general, foldl_nearestUpd_none]

theorem candOf_spec {osrm : UnitRec → OsrmOutcome} {havm : Hav} {em : EmgRec}
    {u : UnitRec} {c : UCand} (h : candOf osrm havm em u = some c) :
    c.unit = u ∧ obsDist osrm havm em u = some c.dist ∧ c.dist ≤ MAX_DISTANCE_METERS := by
  cases hosrm : osrm u with
  | ok od dur =>
    cases od with
    | none =>
      simp only [candOf, hosrm] at h
      exact absurd h (by simp)
    | some d =>
      simp only [candOf, hosrm] at h
      by_cases hle : d ≤ MAX_DISTANCE_METERS
      · rw [if_pos hle] at h
        injection h with h2
        subst h2
        exact ⟨rfl, by simp [obsDist, hosrm], hle⟩
      · rw [if_neg hle] at h
        exact absurd h (by simp)
  | err =>
    simp only [candOf, hosrm] at h
    by_cases hle : havm ⟨em.latitude, em.longitude⟩ ⟨u.latitude, u.longitude⟩ ≤ MAX_DISTANCE_METERS
    · rw [if_pos hle] at h
      injection h with h2
      subst h2
      exact ⟨rfl, by simp [obsDist, hosrm], hle⟩
    · rw [if_neg hle] at h
      exact absurd h (by simp)

theorem candOf_of_obs {osrm : UnitRec → OsrmOutcome} {havm : Hav} {em : EmgRec}
    {u : UnitRec} {d : ℚ} (hobs : obsDist osrm havm em u = some d)
    (hle : d ≤ MAX_DISTANCE_METERS) :
    ∃ c, candOf osrm havm em u = some c ∧ c.unit = u ∧ c.dist = d := by
  cases hosrm : osrm u with
  | ok od dur =>
    cases od with
    | none =>
      simp only [obsDist, hosrm] at hobs
      exact absurd hobs (by simp)
    | some e =>
      simp only [obsDist, hosrm, Option.some_inj] at hobs
      subst hobs
      refine ⟨⟨u, e, dur⟩, ?_, rfl, rfl⟩
      simp only [candOf, hosrm]
      rw [if_pos hle]
  | err =>
    simp only [obsDist, hosrm, Option.some_inj] at hobs
    have hle2 : havm ⟨em.latitude, em.longitude⟩ ⟨u.latitude, u.longitude⟩ ≤
        MAX_DISTANCE_METERS := by rw [hobs]; exact hle
    refine ⟨⟨u, havm ⟨em.latitude, em.longitude⟩ ⟨u.latitude, u.longitude⟩, none⟩,
      ?_, rfl, hobs⟩
    simp only [candOf, hosrm]
    rw [if_pos hle2]

theorem dispatch_pipeline (p2s : P2S) (hav : Hav) (havm : Hav)
    (osrm : UnitRec → OsrmOutcome) (alts : List RouteIn) (traffic : List TrafficSeg)
    (eid : ℕ) (st : SysState) (em : EmgRec)
    (hem : findEmg st eid = some em)
    (hok : em.status = "PENDING" ∨ em.status = "APPROVED")
    (hne : ¬ (poolOf st em).isEmpty = true) :
    dispatchEmergency p2s hav havm osrm alts traffic eid st =
      match firstMinByQ (·.dist) (scanUnits osrm havm em (poolOf st em)).1 with
      | none => ⟨.noneWithinCap (scanUnits osrm havm em (poolOf st em)).2, st⟩
      | some selU => dispatchSuccess p2s hav traffic [] alts em selU st := by
  unfold dispatchEmergency
  rw [hem]
  have hcond : ¬ (em.status ≠ "PENDING" ∧ em.status ≠ "APPROVED") := by
    rcases hok with h | h <;> simp [h]
  simp only [if_neg hcond, if_neg hne]

/-- C1: under a non-empty pool of AVAILABLE units of the required type, a
successful dispatch assigns a unit whose observed (routed or haversine
fallback) distance is within the 50 km cap and minimal among all pool units
observed within the cap; and when every observed distance exceeds the cap,
dispatch fails carrying the minimum raw observed distance. -/
theorem claim_C1_nearest_unit_selection
    (p2s : P2S) (hav : Hav) (havm : Hav) (osrm : UnitRec → OsrmOutcome)
    (alts : List RouteIn) (traffic : List TrafficSeg) (eid : ℕ) (st : SysState)
    (em : EmgRec)
    (hem : findEmg st eid = some em)
    (hok : em.status = "PENDING" ∨ em.status = "APPROVED")
    (hpool : poolOf st em ≠ []) :
    (∀ uid dm es wc,
      (dispatchEmergency p2s hav havm osrm alts traffic eid st).resp = .ok uid dm es wc →
      ∃ u ∈ poolOf st em, u.unit_id = uid ∧ ∃ d, obsDist osrm havm em u = some d ∧
        d ≤ MAX_DISTANCE_METERS ∧
        ∀ v ∈ poolOf st em, ∀ e, obsDist osrm havm em v = some e →
          e ≤ MAX_DISTANCE_METERS → d ≤ e) ∧
    ((∀ v ∈ poolOf st em, ∀ e, obsDist osrm havm em v = some e → MAX_DISTANCE_METERS < e) →
      (dispatchEmergency p2s hav havm osrm alts traffic eid st).resp =
        .noneWithinCap (((poolOf st em).filterMap (obsDist osrm havm em)).min?)) := by
  have hne : ¬ (poolOf st em).isEmpty = true := by
    simpa [List.isEmpty_iff] using hpool
  rw [dispatch_pipeline p2s hav havm osrm alts traffic eid st em hem hok hne]
  cases hmin : firstMinByQ (·.dist) (scanUnits osrm havm em (poolOf st em)).1 with
  | none =>
    constructor
    · intro uid dm es wc h
      exact absurd h (by simp)
    · intro _
      simp [scanUnits_snd]
  | some selU =>
    have hmem := firstMinByQ_mem hmin
    rw [scanUnits_fst] at hmem
    obtain ⟨u, hu, hc⟩ := List.mem_filterMap.mp hmem
    obtain ⟨hcu, hobs, hle⟩ := candOf_spec hc
    constructor
    · intro uid dm es wc h
      simp only [dispatchSuccess] at h
      cases h
      refine ⟨u, hu, by rw [← hcu], selU.dist, hobs, hle, ?_⟩
      intro v hv e hobse hlee
      obtain ⟨c, hcv, _, hcd⟩ := candOf_of_obs hobse hlee
      have hmincv := firstMinByQ_le hmin c
        (by rw [scanUnits_fst]; exact List.mem_filterMap.mpr ⟨v, hv, hcv⟩)
      rw [hcd] at hmincv
      exact hmincv
    · intro hall
      exact absurd hle (not_le.mpr (hall u hu selU.dist hobs))

/-- Concrete state for the C1 witness: two available ambulances at 3 km and
5 km from a pending emergency. -/
def claimC1state : SysState :=
  { units := [⟨1, "AMBULANCE", "AVAILABLE", 0, 0⟩, ⟨2, "AMBULANCE", "AVAILABLE", 1, 1⟩]
    emergencies := [⟨4, "AMBULANCE", "PENDING", 0, 0, none, none⟩]
    routes := [] }

/-- OSRM oracle for the C1 witness. -/
def claimC1osrm (u : UnitRec) : OsrmOutcome :=
  if u.unit_id == 1 then .ok (some 3000) (some 300) else .ok (some 5000) (some 500)

/-- Witness for C1: the instantiated conclusion at the concrete two-unit
state, with all hypotheses discharged. -/
theorem claim_C1_witness :
    (∀ uid dm es wc,
      (dispatchEmergency (fun _ _ _ => 0) (fun _ _ => 0) (fun _ _ => 0)
        claimC1osrm [] [] 4 claimC1state).resp = .ok uid dm es wc →
      ∃ u ∈ poolOf claimC1state ⟨4, "AMBULANCE", "PENDING", 0, 0, none, none⟩,
        u.unit_id = uid ∧ ∃ d,
          obsDist claimC1osrm (fun _ _ => 0)
            ⟨4, "AMBULANCE", "PENDING", 0, 0, none, none⟩ u = some d ∧
          d ≤ MAX_DISTANCE_METERS ∧
          ∀ v ∈ poolOf claimC1state ⟨4, "AMBULANCE", "PENDING", 0, 0, none, none⟩,
            ∀ e, obsDist claimC1osrm (fun _ _ => 0)
                ⟨4, "AMBULANCE", "PENDING", 0, 0, none, none⟩ v = some e →
              e ≤ MAX_DISTANCE_METERS → d ≤ e) ∧
    ((∀ v ∈ poolOf claimC1state ⟨4, "AMBULANCE", "PENDING", 0, 0, none, none⟩,
        ∀ e, obsDist claimC1osrm (fun _ _ => 0)
            ⟨4, "AMBULANCE", "PENDING", 0, 0, none, none⟩ v = some e →
          MAX_DISTANCE_METERS < e) →
      (dispatchEmergency (fun _ _ _ => 0) (fun _ _ => 0) (fun _ _ => 0)
        claimC1osrm [] [] 4 claimC1state).resp =
        .noneWithinCap (((poolOf claimC1state
          ⟨4, "AMBULANCE", "PENDING", 0, 0, none, none⟩).filterMap
            (obsDist claimC1osrm (fun _ _ => 0)
              ⟨4, "AMBULANCE", "PENDING", 0, 0, none, none⟩)).min?)) :=
  claim_C1_nearest_unit_selection (fun _ _ _ => 0) (fun _ _ => 0) (fun _ _ => 0)
    claimC1osrm [] [] 4 claimC1state ⟨4, "AMBULANCE", "PENDING", 0, 0, none, none⟩
    rfl (Or.inl rfl) (by decide)

/-- C10: a dispatch request for a nonexistent incident, or for an incident
whose status is neither PENDING nor APPROVED, is rejected with an error and
leaves the entire persistent state unchanged. -/
theorem claim_C10_reject_no_mutation
    (p2s : P2S) (hav : Hav) (havm : Hav) (osrm : UnitRec → OsrmOutcome)
    (alts : List RouteIn) (traffic : List TrafficSeg) (eid : ℕ) (st : SysState)
    (h : findEmg st eid = none ∨
      ∃ em, findEmg st eid = some em ∧ em.status ≠ "PENDING" ∧ em.status ≠ "APPROVED") :
    ((dispatchEmergency p2s hav havm osrm alts traffic eid st).resp = .notFound ∨
      ∃ s, (dispatchEmergency p2s hav havm osrm alts traffic eid st).resp = .wrongStatus s) ∧
    (dispatchEmergency p2s hav havm osrm alts traffic eid st).state = st := by
  rcases h with h | ⟨em, hem, h1, h2⟩
  · have hred : dispatchEmergency p2s hav havm osrm alts traffic eid st = ⟨.notFound, st⟩ := by
      unfold dispatchEmergency
      rw [h]
    rw [hred]
    exact ⟨Or.inl rfl, rfl⟩
  · have hred : dispatchEmergency p2s hav havm osrm alts traffic eid st =
        ⟨.wrongStatus em.status, st⟩ := by
      unfold dispatchEmergency
      rw [hem]
      simp only [if_pos (And.intro h1 h2)]
    rw [hred]
    exact ⟨Or.inr ⟨em.status, rfl⟩, rfl⟩

/-- Concrete state for the C10 witness: a single already-assigned emergency. -/
def claimC10state : SysState :=
  { units := []
    emergencies := [⟨5, "FIRE", "ASSIGNED", 0, 0, some 2, none⟩]
    routes := [] }

/-- Witness for C10 at a dispatch against an ASSIGNED emergency. -/
theorem claim_C10_witness :
    ((dispatchEmergency (fun _ _ _ => 0) (fun _ _ => 0) (fun _ _ => 0)
        (fun _ => .err) [] [] 5 claimC10state).resp = .notFound ∨
      ∃ s, (dispatchEmergency (fun _ _ _ => 0) (fun _ _ => 0) (fun _ _ => 0)
        (fun _ => .err) [] [] 5 claimC10state).resp = .wrongStatus s) ∧
    (dispatchEmergency (fun _ _ _ => 0) (fun _ _ => 0) (fun _ _ => 0)
      (fun _ => .err) [] [] 5 claimC10state).state = claimC10state :=
  claim_C10_reject_no_mutation (fun _ _ _ => 0) (fun _ _ => 0) (fun _ _ => 0)
    (fun _ => .err) [] [] 5 claimC10state
    (Or.inr ⟨⟨5, "FIRE", "ASSIGNED", 0, 0, some 2, none⟩, rfl, by decide, by decide⟩)

/-! Helper lemmas for the combined-cost selection. -/

theorem foldl_min_le_init (b : ℚ) (l : List ℚ) : l.foldl min b ≤ b := by
  induction l generalizing b with
  | nil => simp
  | cons a t ih => exact le_trans (ih (min b a)) (min_le_left b a)

theorem foldl_min_le_mem (b : ℚ) (l : List ℚ) : ∀ a ∈ l, l.foldl min b ≤ a := by
  induction l generalizing b with
  | nil => simp
  | cons x t ih =>
    intro a ha
    rcases List.mem_cons.mp ha with rfl | ha2
    · exact le_trans (foldl_min_le_init (min b a) t) (min_le_right b a)
    · exact ih (min b x) a ha2

theorem le_foldl_max_init (b : ℚ) (l : List ℚ) : b ≤ l.foldl max b := by
  induction l generalizing b with
  | nil => simp
  | cons a t ih => exact le_trans (le_max_left b a) (ih (max b a))

theorem le_foldl_max_mem (b : ℚ) (l : List ℚ) : ∀ a ∈ l, a ≤ l.foldl max b := by
  induction l generalizing b with
  | nil => simp
  | cons x t ih =>
    intro a ha
    rcases List.mem_cons.mp ha with rfl | ha2
    · exact le_trans (le_max_right b a) (le_foldl_max_init (max b a) t)
    · exact ih (max b x) a ha2

theorem listMinQ_le {l : List ℚ} {a : ℚ} (h : a ∈ l) : listMinQ l ≤ a := by
  cases l with
  | nil => exact absurd h (by simp)
  | cons x t =>
    rcases List.mem_cons.mp h with rfl | h2
    · exact foldl_min_le_init a t
    · exact foldl_min_le_mem x t a h2

theorem le_listMaxQ {l : List ℚ} {a : ℚ} (h : a ∈ l) : a ≤ listMaxQ l := by
  cases l with
  | nil => exact absurd h (by simp)
  | cons x t =>
    rcases List.mem_cons.mp h with rfl | h2
    · exact le_foldl_max_init a t
    · exact le_foldl_max_mem x t a h2

theorem setCost_jam_rank (nb : List Cand) (c : Cand) :
    (setCost nb c).jam_rank = c.jam_rank := by
  unfold setCost
  split
  · rfl
  · rfl

theorem normVal_bounds {v lo hi : ℚ} (h1 : lo ≤ v) (h2 : v ≤ hi) :
    0 ≤ normVal v lo hi ∧ normVal v lo hi ≤ 1 := by
  unfold normVal
  by_cases h : hi ≤ lo
  · rw [if_pos h]
    norm_num
  · rw [if_neg h]
    have hpos : 0 < hi - lo := by linarith [not_le.mp h]
    constructor
    · exact div_nonneg (by linarith) (le_of_lt hpos)
    · rw [div_le_one hpos]
      linarith

theorem mem_rankedPost_decomp {nb : List Cand} {sel : Cand}
    (h : sel ∈ rankedPost nb) :
    ∃ c0, c0 ∈ rankedPre nb ∧ sel = setCost nb c0 := by
  unfold rankedPost updatedNB at h
  obtain ⟨hmem, hp⟩ := List.mem_filter.mp h
  obtain ⟨c0, hc0, hset⟩ := List.mem_map.mp hmem
  refine ⟨c0, ?_, hset.symm⟩
  unfold rankedPre
  refine List.mem_filter.mpr ⟨hc0, ?_⟩
  rw [← hset] at hp
  rwa [setCost_jam_rank] at hp

theorem rankedPost_cost_bounds {nb : List Cand} {sel : Cand}
    (h : sel ∈ rankedPost nb) :
    ∃ q : ℚ, sel.combined_cost = some q ∧ 0 ≤ q ∧ q ≤ 1 := by
  obtain ⟨c0, hpre, hset⟩ := mem_rankedPost_decomp h
  have hrank : (c0.jam_rank == minRankOf nb) = true :=
    (List.mem_filter.mp hpre).2
  have hdmem : c0.duration ∈ (rankedPre nb).map (·.duration) :=
    List.mem_map.mpr ⟨c0, hpre, rfl⟩
  have hcmem : route_congestion_score c0.jam_overlap_m ∈
      (rankedPre nb).map (fun c => route_congestion_score c.jam_overlap_m) :=
    List.mem_map.mpr ⟨c0, hpre, rfl⟩
  have hd1 : minRankDur nb ≤ c0.duration := listMinQ_le hdmem
  have hd2 : c0.duration ≤ maxRankDur nb := le_listMaxQ hdmem
  have hc1 : minRankCong nb ≤ route_congestion_score c0.jam_overlap_m := listMinQ_le hcmem
  have hc2 : route_congestion_score c0.jam_overlap_m ≤ maxRankCong nb := le_listMaxQ hcmem
  obtain ⟨hn1a, hn1b⟩ := normVal_bounds hc1 hc2
  obtain ⟨hn2a, hn2b⟩ := normVal_bounds hd1 hd2
  refine ⟨0.55 * normVal (route_congestion_score c0.jam_overlap_m)
      (minRankCong nb) (maxRankCong nb)
    + 0.45 * normVal c0.duration (minRankDur nb) (maxRankDur nb), ?_, ?_, ?_⟩
  · rw [hset]
    unfold setCost
    rw [if_pos hrank]
  · nlinarith
  · nlinarith

/-- C6: when the shortest-duration non-blocked candidate has severity rank 1
and its combined cost is within 8 percent of the combined cost of the
candidate selected by cost minimization, the final selection is the
shortest-duration candidate. -/
theorem claim_C6_shortest_preference
    (p2s : P2S) (hav : Hav) (bs : List BlockedSeg) (nb : List Cand)
    (sel shortest : Cand)
    (hsel : selected0 p2s hav bs nb = some sel)
    (hshort : firstMinByQ (·.duration) (updatedNB nb) = some shortest)
    (hrank : shortest.jam_rank = 1)
    (hcost : shortest.combined_cost.getD 1 ≤ sel.combined_cost.getD 1 * 1.08) :
    selectFromNonBlocked p2s hav bs nb = some shortest := by
  have hselmem : sel ∈ rankedPost nb := by
    have h1 := List.mem_of_find?_eq_some hsel
    exact (List.perm_insertionSort keyLex (rankedPost nb)).mem_iff.mp h1
  obtain ⟨q, hq, hq0, hq1⟩ := rankedPost_cost_bounds hselmem
  have hc8 : shortest.combined_cost.getD 1 ≤ sel.combined_cost.getD 1 + 0.08 := by
    rw [hq] at hcost ⊢
    simp only [Option.getD_some] at hcost ⊢
    linarith
  unfold selectFromNonBlocked
  rw [hsel, hshort]
  show (if shortest.jam_rank ≤ 1 ∧
      shortest.combined_cost.getD 1 ≤ sel.combined_cost.getD 1 + 0.08
    then some shortest else some sel) = some shortest
  rw [if_pos ⟨le_of_eq hrank, hc8⟩]

/-- Concrete candidates for the C6 witness: two rank-1 candidates, the
shorter of which also has minimal combined cost. -/
def claimC6candA : Cand :=
  { distance := 1000, duration := 100, geometry := [⟨0, 0⟩, ⟨0, 1⟩],
    traffic_penalty_seconds := 0, traffic_score := 100, jam_rank := 1,
    jam_hit_counts := zeroCounts, jam_overlap_m := some zeroOverlap,
    combined_cost := none, congestion_score := none }

def claimC6candB : Cand :=
  { distance := 1200, duration := 110, geometry := [⟨1, 0⟩, ⟨1, 1⟩],
    traffic_penalty_seconds := 0, traffic_score := 110, jam_rank := 1,
    jam_hit_counts := zeroCounts, jam_overlap_m := some zeroOverlap,
    combined_cost := none, congestion_score := none }

/-- Witness for C6 at the concrete two-candidate list. -/
theorem claim_C6_witness :
    selectFromNonBlocked (fun _ _ _ => 999) (fun _ _ => 10) []
      [claimC6candA, claimC6candB] =
      some (setCost [claimC6candA, claimC6candB] claimC6candA) :=
  claim_C6_shortest_preference (fun _ _ _ => 999) (fun _ _ => 10) []
    [claimC6candA, claimC6candB]
    (setCost [claimC6candA, claimC6candB] claimC6candA)
    (setCost [claimC6candA, claimC6candB] claimC6candA)
    (by with_unfolding_all rfl) (by with_unfolding_all rfl)
    (by with_unfolding_all rfl)
    (of_decide_eq_true (by with_unfolding_all rfl))

/-! Waypoint-cap facts and the persisted-record shape (claim C9). -/

theorem capWaypoints_length (pts : List Pt) :
    (capWaypoints pts).length = min pts.length 245 := by
  unfold capWaypoints
  by_cases h : 245 < pts.length
  · rw [if_pos h]
    simp only [List.length_map, List.length_range]
    omega
  · rw [if_neg h]
    omega

/-- C9 amended: the persisted waypoint list is the capped decoding of the
selected geometry, so it never exceeds 245 points and waypoint_count is
exactly its length, namely min(decoded point count, 245); the persisted
polyline however is the uncapped geometry, whose decoded point count can
exceed waypoint_count by more than one (it equals waypoint_count only when
the decoded route has at most 245 points). -/
theorem claim_C9_amended (p2s : P2S) (hav : Hav) (traffic : List TrafficSeg)
    (bs : List BlockedSeg) (alts : List RouteIn) (em : EmgRec) (selU : UCand)
    (pts : List Pt)
    (hg : (bestRouteOf p2s hav traffic bs alts selU).geometry = some pts) :
    (newRecOf p2s hav traffic bs alts em selU).cached_waypoints =
      some (capWaypoints pts) ∧
    (capWaypoints pts).length ≤ 245 ∧
    (newRecOf p2s hav traffic bs alts em selU).waypoint_count = min pts.length 245 ∧
    (newRecOf p2s hav traffic bs alts em selU).route_geometry = some pts := by
  refine ⟨?_, ?_, ?_, ?_⟩
  · simp only [newRecOf, wpOf, hg]
  · rw [capWaypoints_length]; omega
  · simp only [newRecOf, wpOf, hg]
    rw [capWaypoints_length]
  · simp only [newRecOf, wpOf, hg]

/-- Concrete three-point geometry for the C9 witness. -/
def claimC9pts : List Pt := [⟨0, 0⟩, ⟨0, 1⟩, ⟨0, 2⟩]

/-- Witness for the amended C9 at a concrete dispatch input whose selected
route has 3 points. -/
theorem claim_C9_witness :
    (newRecOf (fun _ _ _ => 0) (fun _ _ => 0) [] []
        [⟨some 1000, some 100, some claimC9pts⟩]
        ⟨9, "FIRE", "PENDING", 0, 0, none, none⟩
        ⟨⟨1, "FIRE", "AVAILABLE", 0, 0⟩, 1000, some 100⟩).cached_waypoints =
      some (capWaypoints claimC9pts) ∧
    (capWaypoints claimC9pts).length ≤ 245 ∧
    (newRecOf (fun _ _ _ => 0) (fun _ _ => 0) [] []
        [⟨some 1000, some 100, some claimC9pts⟩]
        ⟨9, "FIRE", "PENDING", 0, 0, none, none⟩
        ⟨⟨1, "FIRE", "AVAILABLE", 0, 0⟩, 1000, some 100⟩).waypoint_count =
      min claimC9pts.length 245 ∧
    (newRecOf (fun _ _ _ => 0) (fun _ _ => 0) [] []
        [⟨some 1000, some 100, some claimC9pts⟩]
        ⟨9, "FIRE", "PENDING", 0, 0, none, none⟩
        ⟨⟨1, "FIRE", "AVAILABLE", 0, 0⟩, 1000, some 100⟩).route_geometry =
      some claimC9pts :=
  claim_C9_amended (fun _ _ _ => 0) (fun _ _ => 0) [] []
    [⟨some 1000, some 100, some claimC9pts⟩]
    ⟨9, "FIRE", "PENDING", 0, 0, none, none⟩
    ⟨⟨1, "FIRE", "AVAILABLE", 0, 0⟩, 1000, some 100⟩
    claimC9pts (by with_unfolding_all rfl)

/-- A 247-point route geometry. -/
def claimC9pts247 : List Pt := (List.range 247).map (fun i => ⟨(i : ℚ), 0⟩)

/-- State for the C9 counterexample dispatch. -/
def claimC9state : SysState :=
  { units := [⟨1, "FIRE", "AVAILABLE", 0, 0⟩]
    emergencies := [⟨9, "FIRE", "PENDING", 0, 0, none, none⟩]
    routes := [] }

set_option maxRecDepth 100000 in
/-- C9 counterexample: dispatching with a 247-point route stores a record
whose polyline decodes to 247 points while waypoint_count is 245, so the
decoded point count is not within one of waypoint_count. -/
theorem claim_C9_counterexample :
    ((dispatchEmergency (fun _ _ _ => 0) (fun _ _ => 0) (fun _ _ => 0)
        (fun _ => .ok (some 1000) (some 100))
        [⟨some 1000, some 100, some claimC9pts247⟩] [] 9
        claimC9state).state.routes.getLast?.map
      (fun r => (r.route_geometry.map List.length, r.waypoint_count)))
      = some (some 247, 245) ∧
    ¬ (((247 : ℤ) - 245).natAbs ≤ 1) := by
  constructor
  · with_unfolding_all rfl
  · decide

/-! Concrete dispatch refuting claim C2. -/

/-- Minimum distance from a route polyline to a traffic polyline, the
quantity the hard-block claim speaks about. -/
def routeMinDistToPolyline (p2s : P2S) (pts poly : List Pt) : Option ℚ :=
  (consecPairs pts).foldl (fun acc s =>
    match routeSegToPolylineDistM p2s s.1 s.2 poly with
    | none => acc
    | some d => optMinQ acc d) none

def claimC2routeA : List Pt := [⟨0, 0⟩, ⟨0, 1⟩]

def claimC2routeB : List Pt := [⟨1, 0⟩, ⟨1, 1⟩]

def claimC2segT : List Pt := [⟨2, 0⟩, ⟨2, 1⟩]

/-- Distance oracle for the C2 counterexample: route A runs 80 m from the
HIGH segment (inside the 90 m hard-block threshold but outside the 75 m
penalty threshold), route B runs 500 m away. -/
def claimC2p2s : P2S := fun p s _ =>
  if (p.lat = 0 ∧ s.lat = 2) ∨ (p.lat = 2 ∧ s.lat = 0) then 80
  else if (p.lat = 1 ∧ s.lat = 2) ∨ (p.lat = 2 ∧ s.lat = 1) then 500
  else 999

def claimC2hav : Hav := fun _ _ => 10

def claimC2traffic : List TrafficSeg := [⟨21, "HIGH", claimC2segT⟩]

def claimC2alts : List RouteIn :=
  [⟨some 1000, some 100, some claimC2routeA⟩,
   ⟨some 1200, some 110, some claimC2routeB⟩]

def claimC2state : SysState :=
  { units := [⟨1, "FIRE", "AVAILABLE", 0, 0⟩]
    emergencies := [⟨2, "FIRE", "PENDING", 0, 0, none, none⟩]
    routes := [] }

set_option maxRecDepth 100000 in
/-- C2 counterexample: the dispatch selects route A, whose minimum distance
to the HIGH-jam traffic segment is 80 m (at most 90 m), although candidate B
is also among the candidates and keeps 500 m from every traffic polyline
(also for every densely re-sampled point, far beyond 100 m). -/
theorem claim_C2_counterexample :
    ((dispatchEmergency claimC2p2s claimC2hav claimC2hav
        (fun _ => .ok (some 1000) (some 100)) claimC2alts claimC2traffic 2
        claimC2state).state.routes.getLast?.map (·.route_geometry))
      = some (some claimC2routeA) ∧
    routeMinDistToPolyline claimC2p2s claimC2routeA claimC2segT = some 80 ∧
    ((80 : ℚ) ≤ 90) ∧
    ((buildCandidates claimC2p2s claimC2hav claimC2traffic [] claimC2alts).1.map
      (·.geometry)) = [claimC2routeA, claimC2routeB] ∧
    routeMinDistToPolyline claimC2p2s claimC2routeB claimC2segT = some 500 ∧
    ((90 : ℚ) < 500) ∧
    ((samplePointsOnRoute claimC2hav claimC2routeB 25).all
      (fun pt => pointToPolylineDistM claimC2p2s pt claimC2segT == some 500)) = true ∧
    ((100 : ℚ) < 500) := by
  refine ⟨?_, ?_, ?_, ?_, ?_, ?_, ?_, ?_⟩
  · with_unfolding_all rfl
  · with_unfolding_all rfl
  · norm_num
  · with_unfolding_all rfl
  · with_unfolding_all rfl
  · norm_num
  · with_unfolding_all rfl
  · norm_num

/-! Spec-side reading of the traffic penalty (claim C8). -/

/-- Rates named by the spec: LOW 0.06, MEDIUM 0.16, HIGH 0.35 seconds per
meter. -/
def specRate (lv : String) : Option ℚ :=
  if lv = "LOW" then some 0.06
  else if lv = "MEDIUM" then some 0.16
  else if lv = "HIGH" then some 0.35 else none

/-- Traffic segments within the 75 m proximity threshold of one route
segment, paired with their distances, in traffic-list order. -/
def withinProx (p2s : P2S) (s e : Pt) (traffic : List TrafficSeg) :
    List (TrafficSeg × ℚ) :=
  traffic.filterMap (fun t =>
    match routeSegToPolylineDistM p2s s e t.points with
    | some d => if d ≤ 75 then some (t, d) else none
    | none => none)

/-- Contribution of one route segment as the spec words it: segment length
times the rate of the jam level of the nearest traffic segment lying within
75 m, and zero when no traffic segment is within 75 m. -/
def specSegContribution (p2s : P2S) (hav : Hav) (traffic : List TrafficSeg)
    (s e : Pt) : ℚ :=
  match firstMinByQ (fun td => td.2) (withinProx p2s s e traffic) with
  | none => 0
  | some td =>
    match specRate td.1.jam_level with
    | some r => hav s e * r
    | none => 0

/-- Accumulator form of the closest-level scan, on pairs already filtered to
the proximity threshold. -/
def minFoldLvl : List (TrafficSeg × ℚ) → Option (String × ℚ) → Option (String × ℚ)
  | [], acc => acc
  | (t, d) :: rest, acc =>
    match acc with
    | none => minFoldLvl rest (some (t.jam_level, d))
    | some (lv, bd) =>
      if d < bd then minFoldLvl rest (some (t.jam_level, d))
      else minFoldLvl rest (some (lv, bd))

theorem withinProx_mem {p2s : P2S} {s e : Pt} {traffic : List TrafficSeg}
    {t : TrafficSeg} {d : ℚ} (h : (t, d) ∈ withinProx p2s s e traffic) :
    t ∈ traffic := by
  unfold withinProx at h
  obtain ⟨t0, ht0, hf⟩ := List.mem_filterMap.mp h
  split at hf
  · split at hf
    · injection hf with hf2
      have ht : t0 = t := congrArg Prod.fst hf2
      rwa [← ht]
    · exact absurd hf (by simp)
  · exact absurd hf (by simp)

theorem innerScan_some (p2s : P2S) (s e : Pt) (ts : List TrafficSeg)
    (hnb : ∀ t ∈ ts, t.jam_level ≠ "BLOCKED") (lv : String) (d : ℚ) :
    innerScanTraffic p2s s e 75 120 ts (some lv) (some d) =
      .closest ((minFoldLvl (withinProx p2s s e ts) (some (lv, d))).map Prod.fst) := by
  induction ts generalizing lv d with
  | nil => rfl
  | cons t rest ih =>
    have hnbt : t.jam_level ≠ "BLOCKED" := hnb t (List.mem_cons_self t rest)
    have hnbr : ∀ u ∈ rest, u.jam_level ≠ "BLOCKED" :=
      fun u hu => hnb u (List.mem_cons_of_mem t hu)
    have hcond : ¬ (t.jam_level = "BLOCKED" ∧
        optDistLe (routeSegToPolylineDistM p2s s e t.points) 120 = true) :=
      fun hc => hnbt hc.1
    simp only [innerScanTraffic, if_neg hcond]
    split
    · rename_i hd
      simp only [withinProx, List.filterMap_cons, hd]
      exact ih hnbr lv d
    · rename_i dv hd
      by_cases hle : dv ≤ 75
      · rw [if_pos hle]
        simp only [withinProx, List.filterMap_cons, hd, if_pos hle]
        show _ = InnerScan.closest
          ((minFoldLvl ((t, dv) :: withinProx p2s s e rest) (some (lv, d))).map Prod.fst)
        simp only [minFoldLvl]
        by_cases hlt : dv < d
        · simp only [if_pos hlt]
          exact ih hnbr t.jam_level dv
        · simp only [if_neg hlt]
          exact ih hnbr lv d
      · rw [if_neg hle]
        simp only [withinProx, List.filterMap_cons, hd, if_neg hle]
        exact ih hnbr lv d

theorem innerScan_none (p2s : P2S) (s e : Pt) (ts : List TrafficSeg)
    (hnb : ∀ t ∈ ts, t.jam_level ≠ "BLOCKED") :
    innerScanTraffic p2s s e 75 120 ts none none =
      .closest ((minFoldLvl (withinProx p2s s e ts) none).map Prod.fst) := by
  induction ts with
  | nil => rfl
  | cons t rest ih =>
    have hnbt : t.jam_level ≠ "BLOCKED" := hnb t (List.mem_cons_self t rest)
    have hnbr : ∀ u ∈ rest, u.jam_level ≠ "BLOCKED" :=
      fun u hu => hnb u (List.mem_cons_of_mem t hu)
    have hcond : ¬ (t.jam_level = "BLOCKED" ∧
        optDistLe (routeSegToPolylineDistM p2s s e t.points) 120 = true) :=
      fun hc => hnbt hc.1
    simp only [innerScanTraffic, if_neg hcond]
    split
    · rename_i hd
      simp only [withinProx, List.filterMap_cons, hd]
      exact ih hnbr
    · rename_i dv hd
      by_cases hle : dv ≤ 75
      · rw [if_pos hle]
        simp only [withinProx, List.filterMap_cons, hd, if_pos hle]
        show _ = InnerScan.closest
          ((minFoldLvl ((t, dv) :: withinProx p2s s e rest) none).map Prod.fst)
        simp only [minFoldLvl]
        exact innerScan_some p2s s e rest hnbr t.jam_level dv
      · rw [if_neg hle]
        simp only [withinProx, List.filterMap_cons, hd, if_neg hle]
        exact ih hnbr

theorem minFoldLvl_some_eq (L : List (TrafficSeg × ℚ)) (lv : String) (d : ℚ) :
    minFoldLvl L (some (lv, d)) =
      some (L.foldl (fun (b : String × ℚ) (y : TrafficSeg × ℚ) =>
        if y.2 < b.2 then (y.1.jam_level, y.2) else b) (lv, d)) := by
  induction L generalizing lv d with
  | nil => rfl
  | cons p rest ih =>
    obtain ⟨t, dv⟩ := p
    simp only [minFoldLvl, List.foldl_cons]
    by_cases hlt : dv < d
    · rw [if_pos hlt, if_pos hlt]
      exact ih t.jam_level dv
    · rw [if_neg hlt, if_neg hlt]
      exact ih lv d

theorem fold_map_comm (L : List (TrafficSeg × ℚ)) (b : TrafficSeg × ℚ) :
    ((L.foldl (fun b y => if y.2 < b.2 then y else b) b).1.jam_level,
      (L.foldl (fun b y => if y.2 < b.2 then y else b) b).2) =
      L.foldl (fun (b2 : String × ℚ) (y : TrafficSeg × ℚ) =>
        if y.2 < b2.2 then (y.1.jam_level, y.2) else b2) (b.1.jam_level, b.2) := by
  induction L generalizing b with
  | nil => rfl
  | cons y rest ih =>
    simp only [List.foldl_cons]
    by_cases hlt : y.2 < b.2
    · rw [if_pos hlt, if_pos hlt]
      exact ih y
    · rw [if_neg hlt, if_neg hlt]
      exact ih b

theorem minFoldLvl_none_eq (L : List (TrafficSeg × ℚ)) :
    minFoldLvl L none =
      (firstMinByQ (fun td => td.2) L).map (fun td => (td.1.jam_level, td.2)) := by
  cases L with
  | nil => rfl
  | cons p rest =>
    show minFoldLvl rest (some (p.1.jam_level, p.2)) = _
    rw [minFoldLvl_some_eq]
    simp only [firstMinByQ, Option.map_some']
    rw [← fold_map_comm]

theorem accumulate_penalty (lvl : Option String) (segLen p : ℚ)
    (c : JamCounts) (o : JamOverlap) :
    (accumulateLevel lvl segLen p c o).1 =
      p + (match lvl with
        | none => 0
        | some lv =>
          match jamSecPerMeter lv with
          | some r => segLen * r
          | none => 0) := by
  cases lvl with
  | none => simp [accumulateLevel]
  | some lv =>
    cases hr : jamSecPerMeter lv with
    | none => simp [accumulateLevel, hr]
    | some r => simp [accumulateLevel, hr]

theorem specRate_eq_jamRate {lv : String}
    (h : lv = "LOW" ∨ lv = "MEDIUM" ∨ lv = "HIGH") :
    jamSecPerMeter lv = specRate lv := by
  rcases h with h | h | h <;> simp [jamSecPerMeter, specRate, h]

theorem evalLoop_spec (p2s : P2S) (hav : Hav) (traffic : List TrafficSeg)
    (hlev : ∀ t ∈ traffic,
      t.jam_level = "LOW" ∨ t.jam_level = "MEDIUM" ∨ t.jam_level = "HIGH")
    (segs : List (Pt × Pt)) (st : EvalState) :
    (evalPenaltyLoop p2s hav traffic 75 120 segs st).penalty =
      st.penalty + (segs.map
        (fun se => specSegContribution p2s hav traffic se.1 se.2)).sum ∧
    (evalPenaltyLoop p2s hav traffic 75 120 segs st).blocked = st.blocked := by
  have hnb : ∀ t ∈ traffic, t.jam_level ≠ "BLOCKED" := by
    intro t ht
    rcases hlev t ht with h | h | h <;> simp [h]
  induction segs generalizing st with
  | nil => simp [evalPenaltyLoop]
  | cons se rest ih =>
    obtain ⟨s, e⟩ := se
    simp only [evalPenaltyLoop, innerScan_none p2s s e traffic hnb]
    cases hmin : firstMinByQ (fun td => td.2) (withinProx p2s s e traffic) with
    | none =>
      rw [minFoldLvl_none_eq, hmin]
      simp only [Option.map_none']
      obtain ⟨ih1, ih2⟩ := ih _
      constructor
      · rw [ih1]
        simp only [accumulate_penalty]
        have hcontrib : specSegContribution p2s hav traffic s e = 0 := by
          unfold specSegContribution
          rw [hmin]
        simp only [List.map_cons, List.sum_cons, hcontrib]
        ring
      · rw [ih2]
    | some td =>
      rw [minFoldLvl_none_eq, hmin]
      simp only [Option.map_some']
      obtain ⟨ih1, ih2⟩ := ih _
      have htmem : td.1 ∈ traffic := by
        have h1 := firstMinByQ_mem hmin
        have h2 : (td.1, td.2) ∈ withinProx p2s s e traffic := by
          simpa using h1
        exact withinProx_mem h2
      have hrate := specRate_eq_jamRate (hlev td.1 htmem)
      have hcontrib : specSegContribution p2s hav traffic s e =
          (match jamSecPerMeter td.1.jam_level with
            | some r => hav s e * r
            | none => 0) := by
        unfold specSegContribution
        rw [hmin, hrate]
      constructor
      · rw [ih1]
        simp only [accumulate_penalty]
        simp only [List.map_cons, List.sum_cons, hcontrib]
        cases jamSecPerMeter td.1.jam_level with
        | none => ring
        | some r => ring
      · rw [ih2]

theorem consecPairs_short {α : Type} {l : List α} (h : l.length < 2) :
    consecPairs l = [] := by
  cases l with
  | nil => rfl
  | cons a t =>
    cases t with
    | nil => rfl
    | cons b t2 =>
      exfalso
      simp only [List.length_cons] at h
      omega

/-- C8: for traffic segments carrying only the LOW, MEDIUM, HIGH levels (as
loaded segments do), the penalty evaluator never reports a blocked route and
its penalty in seconds is the sum over the route segments of segment length
times the rate of the jam level of the nearest traffic segment within 75 m
(LOW 0.06, MEDIUM 0.16, HIGH 0.35 s/m), segments with no traffic segment
within 75 m contributing zero. -/
theorem claim_C8_penalty (p2s : P2S) (hav : Hav) (routePoints : List Pt)
    (traffic : List TrafficSeg)
    (hlev : ∀ t ∈ traffic,
      t.jam_level = "LOW" ∨ t.jam_level = "MEDIUM" ∨ t.jam_level = "HIGH") :
    (evaluate_route_traffic_penalty p2s hav routePoints traffic 75 120).blocked = false ∧
    (evaluate_route_traffic_penalty p2s hav routePoints traffic 75 120).penalty_seconds =
      ((consecPairs routePoints).map
        (fun se => specSegContribution p2s hav traffic se.1 se.2)).sum := by
  unfold evaluate_route_traffic_penalty
  by_cases hcase : routePoints.length < 2 ∨ traffic = []
  · rw [if_pos hcase]
    refine ⟨rfl, ?_⟩
    rcases hcase with h | h
    · rw [consecPairs_short h]
      rfl
    · subst h
      have hz : ∀ x ∈ (consecPairs routePoints).map
          (fun se => specSegContribution p2s hav ([] : List TrafficSeg) se.1 se.2),
          x = 0 := by
        intro x hx
        obtain ⟨se, _, hse⟩ := List.mem_map.mp hx
        rw [← hse]
        rfl
      rw [List.sum_eq_zero hz]
  · rw [if_neg hcase]
    obtain ⟨h1, h2⟩ := evalLoop_spec p2s hav traffic hlev (consecPairs routePoints)
      { penalty := 0, blocked := false, counts := zeroCounts, overlap := zeroOverlap }
    refine ⟨?_, ?_⟩
    · show (evalPenaltyLoop p2s hav traffic 75 120 (consecPairs routePoints)
        { penalty := 0, blocked := false, counts := zeroCounts,
          overlap := zeroOverlap }).blocked = false
      rw [h2]
    · show (evalPenaltyLoop p2s hav traffic 75 120 (consecPairs routePoints)
        { penalty := 0, blocked := false, counts := zeroCounts,
          overlap := zeroOverlap }).penalty = _
      rw [h1]
      ring

/-- Concrete inputs of the C8 witness: a two-segment route, every point 50 m
from the single HIGH traffic polyline. -/
def claimC8route : List Pt := [⟨0, 0⟩, ⟨0, 1⟩, ⟨0, 2⟩]

def claimC8traffic : List TrafficSeg := [⟨5, "HIGH", [⟨1, 0⟩, ⟨1, 2⟩]⟩]

/-- Witness for C8 at the concrete route and traffic data. -/
theorem claim_C8_witness :
    (evaluate_route_traffic_penalty (fun _ _ _ => 50) (fun _ _ => 10)
      claimC8route claimC8traffic 75 120).blocked = false ∧
    (evaluate_route_traffic_penalty (fun _ _ _ => 50) (fun _ _ => 10)
      claimC8route claimC8traffic 75 120).penalty_seconds =
      ((consecPairs claimC8route).map
        (fun se => specSegContribution (fun _ _ _ => 50) (fun _ _ => 10)
          claimC8traffic se.1 se.2)).sum :=
  claim_C8_penalty (fun _ _ _ => 50) (fun _ _ => 10) claimC8route claimC8traffic
    (by decide)

/-! Proximity exclusion is vacuous during dispatch (claim C2, amended). -/

/-- The fallback_shortest update of one candidate-loop iteration. -/
def buildFb (fb : Option FallbackRoute) (d u : ℚ) (g : List Pt) : Option FallbackRoute :=
  match fb with
  | none => some ⟨d, u, g⟩
  | some f => if u < f.duration then some ⟨d, u, g⟩ else some f

/-- The candidate dict built for a valid, kept alternative. -/
def buildCand (p2s : P2S) (hav : Hav) (traffic : List TrafficSeg)
    (d u : ℚ) (g : List Pt) : Cand :=
  { distance := d, duration := u, geometry := g,
    traffic_penalty_seconds :=
      min (evaluate_route_traffic_penalty p2s hav g traffic 75 120).penalty_seconds (u * 0.35),
    traffic_score := u +
      min (evaluate_route_traffic_penalty p2s hav g traffic 75 120).penalty_seconds (u * 0.35),
    jam_rank := route_jam_severity_rank
      (some (evaluate_route_traffic_penalty p2s hav g traffic 75 120).jam_hit_counts)
      (evaluate_route_traffic_penalty p2s hav g traffic 75 120).jam_overlap_m,
    jam_hit_counts := (evaluate_route_traffic_penalty p2s hav g traffic 75 120).jam_hit_counts,
    jam_overlap_m := (evaluate_route_traffic_penalty p2s hav g traffic 75 120).jam_overlap_m,
    combined_cost := none, congestion_score := none }

theorem buildStep_eq_valid (p2s : P2S) (hav : Hav) (traffic : List TrafficSeg)
    (bs : List BlockedSeg) (acc : List Cand × Option FallbackRoute)
    (d u : ℚ) (g : List Pt) :
    buildStep p2s hav traffic bs acc ⟨some d, some u, some g⟩ =
      if MAX_DISTANCE_METERS < d then acc
      else if ¬ (getRouteBlockingSegmentIds p2s hav g bs 90 100).isEmpty then
        (acc.1, buildFb acc.2 d u g)
      else if (evaluate_route_traffic_penalty p2s hav g traffic 75 120).blocked then
        (acc.1, buildFb acc.2 d u g)
      else
        (acc.1 ++ [buildCand p2s hav traffic d u g], buildFb acc.2 d u g) := rfl

theorem evalLoop_blocked_preserved (p2s : P2S) (hav : Hav) (traffic : List TrafficSeg)
    (hnb : ∀ t ∈ traffic, t.jam_level ≠ "BLOCKED") :
    ∀ (segs : List (Pt × Pt)) (st : EvalState),
      (evalPenaltyLoop p2s hav traffic 75 120 segs st).blocked = st.blocked := by
  intro segs
  induction segs with
  | nil => intro st; rfl
  | cons se rest ih =>
    intro st
    obtain ⟨s, e⟩ := se
    simp only [evalPenaltyLoop, innerScan_none p2s s e traffic hnb]
    exact ih _

/-- The penalty evaluator can only reject a route for a BLOCKED jam level, so
on traffic data without that level it never reports a blocked route. -/
theorem evaluate_not_blocked (p2s : P2S) (hav : Hav) (pts : List Pt)
    (traffic : List TrafficSeg)
    (hnb : ∀ t ∈ traffic, t.jam_level ≠ "BLOCKED") :
    (evaluate_route_traffic_penalty p2s hav pts traffic 75 120).blocked = false := by
  unfold evaluate_route_traffic_penalty
  by_cases hcase : pts.length < 2 ∨ traffic = []
  · rw [if_pos hcase]
  · rw [if_neg hcase]
    show (evalPenaltyLoop p2s hav traffic 75 120 (consecPairs pts)
      { penalty := 0, blocked := false, counts := zeroCounts,
        overlap := zeroOverlap }).blocked = false
    rw [evalLoop_blocked_preserved p2s hav traffic hnb]

theorem buildStep_mem_mono (p2s : P2S) (hav : Hav) (traffic : List TrafficSeg)
    (acc : List Cand × Option FallbackRoute) (r : RouteIn) {c : Cand}
    (hc : c ∈ acc.1) : c ∈ (buildStep p2s hav traffic [] acc r).1 := by
  obtain ⟨rd, ru, rg⟩ := r
  rcases rd with _ | d
  · rcases ru with _ | u <;> rcases rg with _ | g <;> exact hc
  · rcases ru with _ | u
    · rcases rg with _ | g <;> exact hc
    · rcases rg with _ | g
      · exact hc
      · rw [buildStep_eq_valid]
        by_cases h1 : MAX_DISTANCE_METERS < d
        · rw [if_pos h1]; exact hc
        · rw [if_neg h1]
          by_cases h2 : ¬ (getRouteBlockingSegmentIds p2s hav g
              ([] : List BlockedSeg) 90 100).isEmpty = true
          · rw [if_pos h2]; exact hc
          · rw [if_neg h2]
            by_cases h3 : (evaluate_route_traffic_penalty p2s hav g
                traffic 75 120).blocked = true
            · rw [if_pos h3]; exact hc
            · rw [if_neg h3]
              exact List.mem_append_left _ hc

theorem buildFold_mem_mono (p2s : P2S) (hav : Hav) (traffic : List TrafficSeg) :
    ∀ (alts : List RouteIn) (acc : List Cand × Option FallbackRoute) (c : Cand),
      c ∈ acc.1 → c ∈ (alts.foldl (buildStep p2s hav traffic []) acc).1 := by
  intro alts
  induction alts with
  | nil => intro acc c hc; simpa using hc
  | cons r rest ih =>
    intro acc c hc
    simp only [List.foldl_cons]
    exact ih _ c (buildStep_mem_mono p2s hav traffic acc r hc)

/-- On BLOCKED-free traffic, a valid in-cap alternative is never dropped by
the candidate loop: the iteration appends its scored candidate. -/
theorem buildStep_adds (p2s : P2S) (hav : Hav) (traffic : List TrafficSeg)
    (acc : List Cand × Option FallbackRoute) (d u : ℚ) (g : List Pt)
    (hnb : ∀ t ∈ traffic, t.jam_level ≠ "BLOCKED")
    (hle : d ≤ MAX_DISTANCE_METERS) :
    ∃ cand, (buildStep p2s hav traffic [] acc ⟨some d, some u, some g⟩).1 =
        acc.1 ++ [cand] ∧
      cand.geometry = g ∧ cand.distance = d ∧ cand.duration = u := by
  have hids : (getRouteBlockingSegmentIds p2s hav g
      ([] : List BlockedSeg) 90 100).isEmpty = true := by
    have h0 : getRouteBlockingSegmentIds p2s hav g ([] : List BlockedSeg) 90 100 = [] := by
      simp [getRouteBlockingSegmentIds]
    rw [h0]
    rfl
  have hbl : ¬ ((evaluate_route_traffic_penalty p2s hav g traffic 75 120).blocked = true) := by
    rw [evaluate_not_blocked p2s hav g traffic hnb]
    simp
  rw [buildStep_eq_valid, if_neg (not_lt.mpr hle), if_neg (not_not_intro hids),
    if_neg hbl]
  exact ⟨buildCand p2s hav traffic d u g, rfl, rfl, rfl, rfl⟩

/-- C2 amended: no route candidate is ever excluded for proximity to traffic
during dispatch.  The hard-block test returns no blocking ids for the empty
blocked-segment list that dispatch always passes; loaded traffic segments
never carry the BLOCKED jam level (legacy BLOCKED is remapped to HIGH), so
the penalty evaluator's BLOCKED rejection never fires either; consequently
every alternative with distance, duration and geometry inside the 50 km cap
is kept as a scored candidate - proximity to a HIGH-jam segment influences
only its penalty and severity rank, and (per the counterexample) such a
candidate can be the selected route while a clean alternative exists. -/
theorem claim_C2_amended (p2s : P2S) (hav : Hav) (routePoints : List Pt)
    (bT sT : ℚ) (raw : Option String) (traffic : List TrafficSeg)
    (alts : List RouteIn)
    (hnb : ∀ t ∈ traffic, t.jam_level ≠ "BLOCKED") :
    getRouteBlockingSegmentIds p2s hav routePoints [] bT sT = [] ∧
    loadJamLevel raw ≠ "BLOCKED" ∧
    (evaluate_route_traffic_penalty p2s hav routePoints traffic 75 120).blocked = false ∧
    (∀ r ∈ alts, ∀ d u g, r.distance = some d → r.duration = some u →
      r.geometry = some g → d ≤ MAX_DISTANCE_METERS →
      ∃ c ∈ (buildCandidates p2s hav traffic [] alts).1,
        c.geometry = g ∧ c.distance = d ∧ c.duration = u) := by
  refine ⟨?_, ?_, evaluate_not_blocked p2s hav routePoints traffic hnb, ?_⟩
  · simp [getRouteBlockingSegmentIds]
  · unfold loadJamLevel
    by_cases h : ((raw.getD "MEDIUM").trim.toUpper) = "BLOCKED"
    · rw [if_pos h]; decide
    · rw [if_neg h]; exact h
  · have hgen : ∀ (l : List RouteIn) (acc : List Cand × Option FallbackRoute),
        ∀ r ∈ l, ∀ d u g, r.distance = some d → r.duration = some u →
          r.geometry = some g → d ≤ MAX_DISTANCE_METERS →
          ∃ c ∈ (l.foldl (buildStep p2s hav traffic []) acc).1,
            c.geometry = g ∧ c.distance = d ∧ c.duration = u := by
      intro l
      induction l with
      | nil => intro acc r hr; exact absurd hr (by simp)
      | cons r0 rest ih =>
        intro acc r hr d u g hd hu hg hle
        rcases List.mem_cons.mp hr with rfl | hr2
        · obtain ⟨rd, ru, rg⟩ := r
          have hd2 : rd = some d := hd
          have hu2 : ru = some u := hu
          have hg2 : rg = some g := hg
          subst hd2
          subst hu2
          subst hg2
          simp only [List.foldl_cons]
          obtain ⟨cand, hstep, hcg, hcd, hcu⟩ :=
            buildStep_adds p2s hav traffic acc d u g hnb hle
          refine ⟨cand, ?_, hcg, hcd, hcu⟩
          apply buildFold_mem_mono
          rw [hstep]
          exact List.mem_append_right _ (by simp)
        · simp only [List.foldl_cons]
          exact ih _ r hr2 d u g hd hu hg hle
    intro r hr d u g hd hu hg hle
    exact hgen alts ([], none) r hr d u g hd hu hg hle

/-- Witness for the amended C2 at the concrete counterexample inputs. -/
theorem claim_C2_witness :
    getRouteBlockingSegmentIds claimC2p2s claimC2hav claimC2routeA [] 90 100 = [] ∧
    loadJamLevel none ≠ "BLOCKED" ∧
    (evaluate_route_traffic_penalty claimC2p2s claimC2hav claimC2routeA
      claimC2traffic 75 120).blocked = false ∧
    (∀ r ∈ claimC2alts, ∀ d u g, r.distance = some d → r.duration = some u →
      r.geometry = some g → d ≤ MAX_DISTANCE_METERS →
      ∃ c ∈ (buildCandidates claimC2p2s claimC2hav claimC2traffic [] claimC2alts).1,
        c.geometry = g ∧ c.distance = d ∧ c.duration = u) :=
  claim_C2_amended claimC2p2s claimC2hav claimC2routeA 90 100 none
    claimC2traffic claimC2alts (by decide)

end EROS
